import Mathlib

/-!
Shallow embedding of the Ledgerly repository's import-normalization pipeline
(`dashboard.py`) and of its transaction / analytics services
(`ledgerly/services/billing_service.py`, `stock_service.py`,
`analytics_service.py`), together with theorems settling the specification
claims about them.

Conventions of the embedding:
* pandas DataFrames are column-oriented: a frame is a list of named columns,
  each holding a list of cells; selection, elementwise coercion, boolean-mask
  filtering and column selection mirror the pandas operations used in the
  source.  Selecting a label carried by several columns yields a DataFrame in
  pandas, on which the subsequent `.str` / `to_numeric` step raises; the
  embedding models those steps in `Except`.
* Python string methods `strip` / `lower` / `replace` (single-character
  patterns) act characterwise and are modelled over `List Char`.
* numeric cell values are rationals (`Rat`); `pd.to_numeric(errors="coerce")`
  is a permissive parser returning `Option Rat`.
* dates are integers (day numbers); `parse_date("today")` is a `today`
  parameter threaded through the service operations.
-/

namespace Ledgerly

/-! ### Python-style string primitives -/

/-- Python `str.strip()`: remove whitespace from both ends. -/
def pyStrip (s : String) : String :=
  ⟨((s.toList.dropWhile Char.isWhitespace).reverse.dropWhile Char.isWhitespace).reverse⟩

/-- Python `str.lower()` (characterwise). -/
def pyLower (s : String) : String :=
  ⟨s.toList.map Char.toLower⟩

/-- Python `str.replace(old, new)` for single-character `old`/`new`:
characterwise substitution. -/
def pyReplaceChar (old new : Char) (s : String) : String :=
  ⟨s.toList.map (fun c => if c = old then new else c)⟩

/-! ### Cell values and permissive numeric parsing -/

/-- A cell of a pandas frame: a string, a number, or NaN. -/
inductive Val where
  | str (s : String)
  | num (q : Rat)
  | nan
deriving Repr, DecidableEq

/-- Value of a run of decimal digits (`none` when empty or a non-digit occurs). -/
def digitsToNat : List Char → Option Nat
  | [] => none
  | cs =>
    if cs.all Char.isDigit then
      some (cs.foldl (fun acc c => 10 * acc + (c.toNat - '0'.toNat)) 0)
    else none

/-- Permissive decimal parser modelling Python float conversion as used by
`pd.to_numeric(errors="coerce")`: optional sign, integer part, optional
fractional part; at least one digit overall. -/
def parseNumStr (s : String) : Option Rat :=
  let cs := (pyStrip s).toList
  let signAndRest : Bool × List Char :=
    match cs with
    | '-' :: rest => (true, rest)
    | '+' :: rest => (false, rest)
    | _ => (false, cs)
  let neg := signAndRest.1
  let body := signAndRest.2
  let intPart := body.takeWhile Char.isDigit
  let afterInt := body.dropWhile Char.isDigit
  let value : Option Rat :=
    match afterInt with
    | [] => (digitsToNat intPart).map (fun n => (n : Rat))
    | '.' :: fracChars =>
      if fracChars.all Char.isDigit ∧ (intPart ≠ [] ∨ fracChars ≠ []) then
        let ip : Nat := (digitsToNat intPart).getD 0
        let fp : Nat := (digitsToNat fracChars).getD 0
        some ((ip : Rat) + (fp : Rat) / ((10 : Rat) ^ fracChars.length))
      else none
    | _ => none
  value.map (fun q => if neg then -q else q)

/-- `pd.to_numeric(·, errors="coerce")` on one cell: numbers pass through,
strings are parsed, anything unparseable (and NaN) becomes NaN (`none`). -/
def toNumericVal : Val → Option Rat
  | .num q => some q
  | .str s => parseNumStr s
  | .nan => none

/-- `astype(str)` on one cell. -/
def astypeStr : Val → String
  | .str s => s
  | .num q => toString q
  | .nan => "nan"

/-! ### Column-oriented DataFrame -/

/-- One named column of cells. -/
structure Col where
  name : String
  cells : List Val
deriving Repr, DecidableEq

/-- A pandas DataFrame: ordered list of named columns. -/
structure DF where
  cols : List Col
deriving Repr, DecidableEq

/-- Column labels, in order. -/
def DF.names (df : DF) : List String := df.cols.map Col.name

/-- Number of rows (length of the first column; 0 for an empty frame). -/
def DF.numRows (df : DF) : Nat :=
  match df.cols with
  | [] => 0
  | c :: _ => c.cells.length

/-- `df[name]` used as a Series: the unique column labelled `name`.
With zero or several matching columns the subsequent Series operation
(`.str`, `pd.to_numeric`) raises in pandas, modelled as `Except.error`. -/
def getSeriesE (df : DF) (name : String) : Except String (List Val) :=
  match df.cols.filter (fun c => c.name = name) with
  | [c] => .ok c.cells
  | [] => .error "KeyError"
  | _ => .error "duplicate column labels"

/-- `df[name] = series`: replace the cells of every column labelled `name`
(in the pipeline this is only reached when that label is unique). -/
def setCol (df : DF) (name : String) (cells : List Val) : DF :=
  ⟨df.cols.map (fun c => if c.name = name then ⟨c.name, cells⟩ else c)⟩

/-- `df[col] = scalar` for a label not present: append a broadcast column. -/
def appendCol (df : DF) (name : String) (v : Val) : DF :=
  ⟨df.cols ++ [⟨name, List.replicate df.numRows v⟩]⟩

/-- The "ensure columns exist" loop: for each `(name, default)` in order,
append a broadcast default column when the label is absent. -/
def ensureCols (df : DF) (defaults : List (String × Val)) : DF :=
  defaults.foldl
    (fun acc nv => if nv.1 ∈ acc.names then acc else appendCol acc nv.1 nv.2) df

/-- Boolean-mask selection on one column's cells. -/
def maskCells (mask : List Bool) (cells : List Val) : List Val :=
  ((mask.zip cells).filter (fun p => p.1)).map Prod.snd

/-- `df[mask]`: keep the rows whose mask entry is `true`, in every column. -/
def applyMask (df : DF) (mask : List Bool) : DF :=
  ⟨df.cols.map (fun c => ⟨c.name, maskCells mask c.cells⟩)⟩

/-- `df[[n1, n2, ...]]`: select columns by label, in the requested order. -/
def selectCols (df : DF) (names : List String) : DF :=
  ⟨names.foldr (fun n acc => (df.cols.filter (fun c => c.name = n)) ++ acc) []⟩

/-! ### Header cleaning and synonym renaming (`dashboard.py` 272–286) -/

/-- `_clean_cols` applied to one header:
`str(c).strip().lower().replace(" ", "_").replace("-", "_")`. -/
def cleanCol (s : String) : String :=
  pyReplaceChar '-' '_' (pyReplaceChar ' ' '_' (pyLower (pyStrip s)))

/-- Association-list lookup (Python `dict` read). -/
def lookupAssoc (m : List (String × String)) (k : String) : Option String :=
  match m with
  | [] => none
  | p :: rest => if p.1 = k then some p.2 else lookupAssoc rest k

/-- Python `dict.__setitem__`: overwrite an existing key in place, otherwise
append the binding. -/
def insertAssoc (m : List (String × String)) (k v : String) :
    List (String × String) :=
  if m.any (fun p => p.1 = k) then
    m.map (fun p => if p.1 = k then (k, v) else p)
  else m ++ [(k, v)]

/-- The `rename_map` construction of `_rename_with_synonyms`: for each
`(target, syns)` of the mapping, for each (cleaned) column label matching the
target name or one of its synonyms, bind that label to the target. -/
def buildRenameMap (colNames : List String)
    (mapping : List (String × List String)) : List (String × String) :=
  mapping.foldl
    (fun m ts =>
      colNames.foldl
        (fun m c => if c = ts.1 ∨ c ∈ ts.2 then insertAssoc m c ts.1 else m)
        m)
    []

/-- Derived characterization of the `rename_map` dict for one column label:
the last mapping target the label matches (later `rename_map[c] = target`
assignments overwrite earlier ones), threaded through an accumulator. -/
def lastMatchFrom (c : String) (mapping : List (String × List String))
    (acc : Option String) : Option String :=
  mapping.foldl (fun a ts => if c = ts.1 ∨ c ∈ ts.2 then some ts.1 else a) acc

/-- `_rename_with_synonyms`: clean all labels, build the rename map, rename. -/
def renameWithSynonyms (df : DF) (mapping : List (String × List String)) : DF :=
  let cleaned : List Col := df.cols.map (fun c => ⟨cleanCol c.name, c.cells⟩)
  let rmap := buildRenameMap (cleaned.map Col.name) mapping
  ⟨cleaned.map (fun c => ⟨(lookupAssoc rmap c.name).getD c.name, c.cells⟩)⟩

/-! ### The Sales and Expenses normalizers (`dashboard.py` 288–308, 328–345) -/

/-- Synonym mapping of `_normalize_sales_df`, in source order. -/
def salesMapping : List (String × List String) :=
  [("item", ["product", "product_name", "item_name", "name", "sku", "title"]),
   ("qty", ["quantity", "units", "count", "qnty", "qnt", "qty_sold"]),
   ("unit_price", ["price", "rate", "unitprice", "selling_price", "mrp", "unit_cost"]),
   ("customer", ["customer_name", "client", "buyer", "member", "party"])]

/-- `df["item"].astype(str).str.strip()` on one cell. -/
def coerceTextVal (v : Val) : Val := .str (pyStrip (astypeStr v))

/-- Sales `qty` coercion: `pd.to_numeric(·, errors="coerce").fillna(1)`. -/
def coerceQtyVal (v : Val) : Val := .num ((toNumericVal v).getD 1)

/-- `unit_price` coercion: `pd.to_numeric(·, errors="coerce").fillna(0)`. -/
def coercePriceVal (v : Val) : Val := .num ((toNumericVal v).getD 0)

/-- Expenses `amount` coercion: `pd.to_numeric(·, errors="coerce").fillna(0)`. -/
def coerceAmountVal (v : Val) : Val := .num ((toNumericVal v).getD 0)

/-- `df["item"].str.len() > 0` on one (string) cell. -/
def strLenPos (v : Val) : Bool :=
  match v with
  | .str s => 0 < s.length
  | _ => false

/-- `df["qty"] > 0` on one (numeric) cell. -/
def numPos (v : Val) : Bool :=
  match v with
  | .num q => 0 < q
  | _ => false

/-- Column defaults of `_normalize_sales_df` ("Ensure columns exist"). -/
def salesDefaults : List (String × Val) :=
  [("item", .str ""), ("qty", .num 0), ("unit_price", .num 0), ("customer", .str "")]

/-- `_normalize_sales_df`: synonym rename, column defaulting, coercion, row
filtering, column selection.  The steps that raise in pandas when a label is
duplicated short-circuit with the error. -/
def normalizeSalesDF (df : DF) : Except String DF :=
  let df1 := ensureCols (renameWithSynonyms df salesMapping) salesDefaults
  match getSeriesE df1 "item" with
  | .error e => .error e
  | .ok itemS =>
    let df2 := setCol df1 "item" (itemS.map coerceTextVal)
    match getSeriesE df2 "customer" with
    | .error e => .error e
    | .ok custS =>
      let df3 := setCol df2 "customer" (custS.map coerceTextVal)
      match getSeriesE df3 "qty" with
      | .error e => .error e
      | .ok qtyS =>
        let df4 := setCol df3 "qty" (qtyS.map coerceQtyVal)
        match getSeriesE df4 "unit_price" with
        | .error e => .error e
        | .ok priceS =>
          let df5 := setCol df4 "unit_price" (priceS.map coercePriceVal)
          match getSeriesE df5 "item" with
          | .error e => .error e
          | .ok itemF =>
            let df6 := applyMask df5 (itemF.map strLenPos)
            match getSeriesE df6 "qty" with
            | .error e => .error e
            | .ok qtyF =>
              let df7 := applyMask df6 (qtyF.map numPos)
              .ok (selectCols df7 ["item", "qty", "unit_price", "customer"])

/-- Synonym mapping of `_normalize_expenses_df`, in source order. -/
def expensesMapping : List (String × List String) :=
  [("category", ["type", "head", "expense_category"]),
   ("vendor", ["supplier", "party", "payee", "seller"]),
   ("amount", ["amt", "value", "cost", "price", "total", "expense"]),
   ("notes", ["note", "remark", "remarks", "description"])]

/-- Column defaults of `_normalize_expenses_df`. -/
def expensesDefaults : List (String × Val) :=
  [("category", .str ""), ("vendor", .str ""), ("amount", .num 0), ("notes", .str "")]

/-- `_normalize_expenses_df`. -/
def normalizeExpensesDF (df : DF) : Except String DF :=
  let df1 := ensureCols (renameWithSynonyms df expensesMapping) expensesDefaults
  match getSeriesE df1 "category" with
  | .error e => .error e
  | .ok catS =>
    let df2 := setCol df1 "category" (catS.map coerceTextVal)
    match getSeriesE df2 "vendor" with
    | .error e => .error e
    | .ok vendS =>
      let df3 := setCol df2 "vendor" (vendS.map coerceTextVal)
      match getSeriesE df3 "notes" with
      | .error e => .error e
      | .ok noteS =>
        let df4 := setCol df3 "notes" (noteS.map coerceTextVal)
        match getSeriesE df4 "amount" with
        | .error e => .error e
        | .ok amtS =>
          let df5 := setCol df4 "amount" (amtS.map coerceAmountVal)
          match getSeriesE df5 "category" with
          | .error e => .error e
          | .ok catF =>
            let df6 := applyMask df5 (catF.map strLenPos)
            match getSeriesE df6 "amount" with
            | .error e => .error e
            | .ok amtF =>
              let df7 := applyMask df6 (amtF.map numPos)
              .ok (selectCols df7 ["category", "vendor", "amount", "notes"])

/-- Zip four equally long columns into rows of 4-tuples. -/
def zipRows (a b c d : List Val) : List (Val × Val × Val × Val) :=
  (a.zip (b.zip (c.zip d))).map (fun p => (p.1, p.2.1, p.2.2.1, p.2.2.2))

/-- Row view of a normalized sales frame: the i-th entries of the four
canonical columns, zipped in order. -/
def salesRows (df : DF) : List (Val × Val × Val × Val) :=
  match df.cols with
  | [a, b, c, d] => zipRows a.cells b.cells c.cells d.cells
  | _ => []

/-! ### The ledger store (`models/sales_model.py`, `models/stock_model.py`) -/

/-- A row of the `sales` table. -/
structure SaleRecord where
  id : Nat
  item : String
  qty : Rat
  unit_price : Rat
  total : Rat
  customer : String
  date : Int
deriving Repr, DecidableEq

/-- A row of the `stock` table (`item` carries a UNIQUE constraint). -/
structure StockRecord where
  id : Nat
  item : String
  qty : Rat
  threshold : Rat
  unit_cost : Rat
  last_updated : Int
deriving Repr, DecidableEq

/-- The relational store: the two tables the claims concern, with the
autoincrement counters of their integer primary keys. -/
structure Store where
  sales : List SaleRecord
  stock : List StockRecord
  nextSaleId : Nat
  nextStockId : Nat
deriving Repr, DecidableEq

/-- `session.query(Stock).filter_by(item=item).first()`. -/
def findStock (stock : List StockRecord) (item : String) : Option StockRecord :=
  stock.find? (fun r => r.item = item)

/-- Mutating the ORM object returned by `first()`: rewrite the first row
satisfying the predicate, leave the rest untouched. -/
def updateFirst (p : StockRecord → Bool) (f : StockRecord → StockRecord) :
    List StockRecord → List StockRecord
  | [] => []
  | r :: rest => if p r then f r :: rest else r :: updateFirst p f rest

/-- At most one stock row per item (the UNIQUE constraint on `Stock.item`). -/
def uniqueItems (stock : List StockRecord) : Prop :=
  stock.Pairwise (fun a b => a.item ≠ b.item)

/-! ### BillingService (`services/billing_service.py`) -/

/-- `BillingService.add_sale`, success path: insert the sale dated today,
then decrement the matching stock row (if any) and refresh its
`last_updated`; returns the new sale's id. -/
def add_sale (s : Store) (today : Int) (item : String)
    (qty unit_price total : Rat) (customer : String) : Store × Nat :=
  let sale : SaleRecord :=
    ⟨s.nextSaleId, item, qty, unit_price, total, customer, today⟩
  let stock1 :=
    match findStock s.stock item with
    | some _ =>
      updateFirst (fun r => r.item = item)
        (fun r => { r with qty := r.qty - qty, last_updated := today }) s.stock
    | none => s.stock
  (⟨s.sales ++ [sale], stock1, s.nextSaleId + 1, s.nextStockId⟩, s.nextSaleId)

/-- Injected failures for the three fallible steps of `add_sale`:
the `session.add` insert, the stock query/adjustment, and the final
`session.commit()`. -/
structure FailSpec where
  failInsert : Bool
  failStockQuery : Bool
  failCommit : Bool
deriving Repr, DecidableEq

/-- A SQLAlchemy session: the durable store plus the session's uncommitted
view.  `commit` publishes the pending view; `rollback` (the `except` branch
of the service methods) discards it. -/
structure Session where
  committed : Store
  pending : Store
deriving Repr, DecidableEq

/-- Open a session on the durable store. -/
def Session.start (db : Store) : Session := ⟨db, db⟩

/-- `session.commit()`, which may itself fail. -/
def Session.commit (ss : Session) (ok : Bool) : Except String Session :=
  if ok then .ok ⟨ss.pending, ss.pending⟩ else .error "commit failed"

/-- `BillingService.add_sale` with failure injection: the `try` body runs
the insert, the stock adjustment and the commit against the session's
pending view; any exception reaches the `except` branch, which rolls the
session back, so the durable store is the one from before the call. -/
def add_saleRun (db : Store) (today : Int) (item : String)
    (qty unit_price total : Rat) (customer : String) (f : FailSpec) :
    Store × Option Nat :=
  let attempt : Except String (Session × Nat) := do
    let ss := Session.start db
    if f.failInsert then throw "insert failed"
    let sale : SaleRecord :=
      ⟨ss.pending.nextSaleId, item, qty, unit_price, total, customer, today⟩
    let p1 : Store := { ss.pending with
      sales := ss.pending.sales ++ [sale],
      nextSaleId := ss.pending.nextSaleId + 1 }
    if f.failStockQuery then throw "stock query failed"
    let p2 : Store := { p1 with
      stock :=
        match findStock p1.stock item with
        | some _ =>
          updateFirst (fun r => r.item = item)
            (fun r => { r with qty := r.qty - qty, last_updated := today })
            p1.stock
        | none => p1.stock }
    let ss2 ← Session.commit ⟨ss.committed, p2⟩ (!f.failCommit)
    pure (ss2, sale.id)
  match attempt with
  | .ok (ss, saleId) => (ss.committed, some saleId)
  | .error _ => (db, none)

/-- `BillingService.add_stock_safe`: keyed upsert on `Stock.item`; returns
`(row id, created?)`. -/
def add_stock_safe (s : Store) (today : Int) (item : String)
    (qty threshold unit_cost : Rat) : Store × Nat × Bool :=
  match findStock s.stock item with
  | some existing =>
    ({ s with
        stock :=
          updateFirst (fun r => r.item = item)
            (fun r => { r with
              qty := qty, threshold := threshold, unit_cost := unit_cost,
              last_updated := today }) s.stock },
     existing.id, false)
  | none =>
    ({ s with
        stock := s.stock ++ [⟨s.nextStockId, item, qty, threshold, unit_cost, today⟩],
        nextStockId := s.nextStockId + 1 },
     s.nextStockId, true)

/-! ### StockService (`services/stock_service.py`) — the class is defined
twice in the file; the second definition shadows the first.  Both
`update_stock` bodies are embedded separately, from their own lines. -/

/-- `StockService.update_stock`, first class definition (lines 23–47). -/
def update_stockFirstDef (s : Store) (today : Int) (item : String)
    (qty threshold unit_cost : Rat) : Store :=
  match findStock s.stock item with
  | some _ =>
    { s with
      stock :=
        updateFirst (fun r => r.item = item)
          (fun r => { r with
            qty := qty, threshold := threshold, unit_cost := unit_cost,
            last_updated := today }) s.stock }
  | none =>
    { s with
      stock := s.stock ++ [⟨s.nextStockId, item, qty, threshold, unit_cost, today⟩],
      nextStockId := s.nextStockId + 1 }

/-- `StockService.update_stock`, second (shadowing) class definition
(lines 68–85). -/
def update_stockSecondDef (s : Store) (today : Int) (item : String)
    (qty threshold unit_cost : Rat) : Store :=
  match findStock s.stock item with
  | some _ =>
    { s with
      stock :=
        updateFirst (fun r => r.item = item)
          (fun r => { r with
            qty := qty, threshold := threshold, unit_cost := unit_cost,
            last_updated := today }) s.stock }
  | none =>
    { s with
      stock := s.stock ++ [⟨s.nextStockId, item, qty, threshold, unit_cost, today⟩],
      nextStockId := s.nextStockId + 1 }

/-! ### AnalyticsService (`services/analytics_service.py`) -/

/-- `AnalyticsService.get_sales_forecast`: SQL `AVG(sales.total)` over the
rows dated on or after `today - 7`, `NULL` coalesced to `0.0`, times 7. -/
def get_sales_forecast (s : Store) (today : Int) : Rat :=
  let window := s.sales.filter (fun r => today - 7 ≤ r.date)
  if window.isEmpty then 0
  else ((window.map SaleRecord.total).sum / (window.length : Rat)) * 7

/-! ### Bulk sales import loop (`dashboard.py` 753–767) -/

/-- The per-row application loop of a Sales import: each normalized row is
turned into an `add_sale` call with `total = qty * unit_price`, counting
successes; a row of unexpected shape is skipped. -/
def applySalesRows (s : Store) (today : Int)
    (rows : List (Val × Val × Val × Val)) : Store × Nat :=
  rows.foldl
    (fun acc r =>
      match r with
      | (Val.str it, Val.num q, Val.num p, Val.str c) =>
        ((add_sale acc.1 today it q p (q * p) c).1, acc.2 + 1)
      | _ => acc)
    (s, 0)

/-- Modelled from the claim wording only (for comparison with the code):
"the average of the trailing 7 days' per-day sale totals multiplied by 7" —
per-day totals over the seven calendar days `today - 6 .. today`, averaged
over the 7 days, times 7. -/
def claimForecastPerDay (s : Store) (today : Int) : Rat :=
  ((((List.range 7).map
      (fun k => ((s.sales.filter (fun r => r.date = today - k)).map
        SaleRecord.total).sum)).sum) / 7) * 7

/-- Store with two sales on day 10 (totals 10 and 20) and one on day 9
(total 30); seen from day 10, the code averages the three rows. -/
def forecastStore : Store :=
  ⟨[⟨1, "A", 1, 10, 10, "x", 10⟩, ⟨2, "B", 1, 20, 20, "y", 10⟩,
    ⟨3, "C", 1, 30, 30, "z", 9⟩], [], 4, 1⟩

/-- Single-row sales frame whose `qty` cell does not parse as a number. -/
def unparsedQtyDF : DF := ⟨[⟨"item", [.str "Tea"]⟩, ⟨"qty", [.str "abc"]⟩]⟩

/-- Single-row expenses frame whose `amount` cell does not parse. -/
def unparsedAmountDF : DF :=
  ⟨[⟨"category", [.str "Rent"]⟩, ⟨"amount", [.str "xyz"]⟩]⟩

/-- Frame in which two distinct input columns (`product`, `item_name`) both
resolve to the canonical Sales field `item`. -/
def duplicateItemDF : DF :=
  ⟨[⟨"product", [.str "Tea"]⟩, ⟨"item_name", [.str "Chai"]⟩]⟩

/-- Frame with a valid item column but no column resolving to `qty`. -/
def noQtyDF : DF :=
  ⟨[⟨"Product Name", [.str "Tea", .str "Rice"]⟩,
    ⟨"Price", [.str "50", .str "60"]⟩]⟩

/-- Number of columns of `df` carrying a given label. -/
def countLabel (df : DF) (n : String) : Nat :=
  (df.cols.filter (fun c => c.name = n)).length

/-- Every cell of every column labelled `n` equals `Val.num 0`. -/
def allZeroAt (df : DF) (n : String) : Prop :=
  ∀ c ∈ df.cols, c.name = n → ∀ x ∈ c.cells, x = Val.num 0

/-! ### Helper lemmas: `find?` / `updateFirst` on stock tables -/

theorem findStock_eq_none_iff (stock : List StockRecord) (item : String) :
    findStock stock item = none ↔ ∀ r ∈ stock, r.item ≠ item := by
  simp [findStock, List.find?_eq_none]

theorem findStock_decomp (pre : List StockRecord) (r : StockRecord)
    (post : List StockRecord) (item : String)
    (hpre : ∀ x ∈ pre, x.item ≠ item) (hr : r.item = item) :
    findStock (pre ++ r :: post) item = some r := by
  induction pre with
  | nil => simp [findStock, List.find?_cons, hr]
  | cons x xs ih =>
    have hx : x.item ≠ item := hpre x (by simp)
    have := ih (fun y hy => hpre y (by simp [hy]))
    simpa [findStock, List.find?_cons, hx] using this

theorem findStock_some_decomp (stock : List StockRecord) (item : String)
    (r : StockRecord) (h : findStock stock item = some r) :
    r.item = item ∧
      ∃ pre post, stock = pre ++ r :: post ∧ ∀ x ∈ pre, x.item ≠ item := by
  induction stock with
  | nil => simp [findStock] at h
  | cons x xs ih =>
    by_cases hx : x.item = item
    · have hstep : findStock (x :: xs) item = some x :=
        List.find?_cons_of_pos _ (by simpa using hx)
      rw [hstep] at h
      cases h
      exact ⟨hx, [], xs, rfl, by simp⟩
    · have hstep : findStock (x :: xs) item = findStock xs item :=
        List.find?_cons_of_neg _ (by simpa using hx)
      rw [hstep] at h
      obtain ⟨hri, pre, post, hs, hpre⟩ := ih h
      exact ⟨hri, x :: pre, post, by simp [hs],
        by
          intro y hy
          rcases List.mem_cons.mp hy with h1 | h2
          · simpa [h1] using hx
          · exact hpre y h2⟩

theorem updateFirst_decomp (p : StockRecord → Bool) (f : StockRecord → StockRecord)
    (pre : List StockRecord) (r : StockRecord) (post : List StockRecord)
    (hpre : ∀ x ∈ pre, p x = false) (hr : p r = true) :
    updateFirst p f (pre ++ r :: post) = pre ++ f r :: post := by
  induction pre with
  | nil => simp [updateFirst, hr]
  | cons x xs ih =>
    have hx : p x = false := hpre x (by simp)
    have := ih (fun y hy => hpre y (by simp [hy]))
    simp [updateFirst, hx, this]

theorem updateFirst_items (p : StockRecord → Bool) (f : StockRecord → StockRecord)
    (hf : ∀ r, (f r).item = r.item) (l : List StockRecord) :
    (updateFirst p f l).map StockRecord.item = l.map StockRecord.item := by
  induction l with
  | nil => rfl
  | cons x xs ih =>
    by_cases hx : p x = true
    · simp [updateFirst, hx, hf]
    · simp only [updateFirst]
      rw [if_neg hx]
      simp [ih]

theorem uniqueItems_iff_map (stock : List StockRecord) :
    uniqueItems stock ↔ (stock.map StockRecord.item).Pairwise (· ≠ ·) := by
  constructor
  · intro h
    exact List.Pairwise.map StockRecord.item (fun a b hab => hab) h
  · intro h
    have := List.pairwise_map.mp h
    exact this

/-! ### Helper lemmas: DataFrame operations -/

theorem filter_name_map (l : List Col) (g : Col → Col)
    (hg : ∀ c, (g c).name = c.name) (n : String) :
    (l.map g).filter (fun c => c.name = n)
      = (l.filter (fun c => c.name = n)).map g := by
  induction l with
  | nil => rfl
  | cons c cl ih =>
    simp only [List.map_cons, List.filter_cons, hg]
    by_cases hc : c.name = n
    · simp [hc, ih]
    · simp [hc, ih]

theorem filter_map_setCol (l : List Col) (n m : String) (cs : List Val)
    (h : m ≠ n) :
    (l.map (fun c => if c.name = n then (⟨c.name, cs⟩ : Col) else c)).filter
        (fun c => c.name = m)
      = l.filter (fun c => c.name = m) := by
  rw [filter_name_map l (fun c => if c.name = n then (⟨c.name, cs⟩ : Col) else c)
    (fun c => by by_cases hc : c.name = n <;> simp [hc]) m]
  have hfix : ∀ c ∈ l.filter (fun c => c.name = m),
      (if c.name = n then (⟨c.name, cs⟩ : Col) else c) = c := by
    intro c hcmem
    have hcm : c.name = m := by simpa using (List.mem_filter.mp hcmem).2
    rw [if_neg (by rw [hcm]; exact h)]
  calc (l.filter (fun c => c.name = m)).map
        (fun c => if c.name = n then (⟨c.name, cs⟩ : Col) else c)
      = (l.filter (fun c => c.name = m)).map id := List.map_congr_left hfix
    _ = l.filter (fun c => c.name = m) := List.map_id _

theorem getSeriesE_setCol_ne (df : DF) (n m : String) (cs : List Val)
    (h : m ≠ n) :
    getSeriesE (setCol df n cs) m = getSeriesE df m := by
  simp only [getSeriesE, setCol]
  rw [filter_map_setCol df.cols n m cs h]

theorem filter_single_of_getSeriesE (df : DF) (n : String) (cells : List Val)
    (h : getSeriesE df n = .ok cells) :
    ∃ c0 : Col, df.cols.filter (fun c => c.name = n) = [c0] ∧
      c0.name = n ∧ c0.cells = cells ∧ c0 ∈ df.cols := by
  unfold getSeriesE at h
  rcases hf : df.cols.filter (fun c => c.name = n) with _ | ⟨c0, rest⟩
  · rw [hf] at h
    exact Except.noConfusion h
  · cases rest with
    | nil =>
      rw [hf] at h
      have hmem : c0 ∈ df.cols.filter (fun c => c.name = n) := by
        rw [hf]; exact List.mem_singleton_self c0
      have hname : c0.name = n := by
        simpa using (List.mem_filter.mp hmem).2
      exact ⟨c0, hf, hname, Except.ok.inj h,
        (List.mem_filter.mp hmem).1⟩
    | cons c1 rest1 =>
      rw [hf] at h
      exact Except.noConfusion h

theorem getSeriesE_setCol_self (df : DF) (n : String) (cs cells : List Val)
    (h : getSeriesE df n = .ok cells) :
    getSeriesE (setCol df n cs) n = .ok cs := by
  obtain ⟨c0, hf, hname, _, _⟩ := filter_single_of_getSeriesE df n cells h
  have hstep : (setCol df n cs).cols.filter (fun c => c.name = n)
      = [⟨c0.name, cs⟩] := by
    simp only [setCol]
    rw [filter_name_map df.cols _ (fun c => by by_cases hc : c.name = n <;> simp [hc]) n, hf]
    simp [hname]
  simp [getSeriesE, hstep]

theorem getSeriesE_applyMask (df : DF) (n : String) (mask : List Bool)
    (cells : List Val) (h : getSeriesE df n = .ok cells) :
    getSeriesE (applyMask df mask) n = .ok (maskCells mask cells) := by
  obtain ⟨c0, hf, _, hcells, _⟩ := filter_single_of_getSeriesE df n cells h
  have hstep : (applyMask df mask).cols.filter (fun c => c.name = n)
      = [⟨c0.name, maskCells mask c0.cells⟩] := by
    simp only [applyMask]
    rw [filter_name_map df.cols
      (fun c => ⟨c.name, maskCells mask c.cells⟩) (fun c => rfl) n, hf]
    rfl
  simp [getSeriesE, hstep, hcells]

theorem mem_maskCells (mask : List Bool) (cells : List Val) (x : Val)
    (h : x ∈ maskCells mask cells) : x ∈ cells := by
  induction mask generalizing cells with
  | nil => simp [maskCells] at h
  | cons b bs ih =>
    cases cells with
    | nil => simp [maskCells] at h
    | cons c cl =>
      cases b with
      | false =>
        rw [show maskCells (false :: bs) (c :: cl) = maskCells bs cl from rfl] at h
        exact List.mem_cons_of_mem c (ih cl h)
      | true =>
        rw [show maskCells (true :: bs) (c :: cl) = c :: maskCells bs cl
          from rfl] at h
        rcases List.mem_cons.mp h with h | h
        · exact h ▸ List.mem_cons_self c cl
        · exact List.mem_cons_of_mem c (ih cl h)

theorem maskCells_eq_nil (mask : List Bool) (cells : List Val)
    (h : ∀ b ∈ mask, b = false) : maskCells mask cells = [] := by
  induction mask generalizing cells with
  | nil => simp [maskCells]
  | cons b bs ih =>
    cases cells with
    | nil => simp [maskCells]
    | cons c cl =>
      have hb : b = false := h b (List.mem_cons_self b bs)
      subst hb
      rw [show maskCells (false :: bs) (c :: cl) = maskCells bs cl from rfl]
      exact ih cl (fun x hx => h x (by simp [hx]))

theorem maskCells_length_congr (mask : List Bool) (a b : List Val)
    (h : a.length = b.length) :
    (maskCells mask a).length = (maskCells mask b).length := by
  induction mask generalizing a b with
  | nil => simp [maskCells]
  | cons m ms ih =>
    cases a with
    | nil =>
      cases b with
      | nil => rfl
      | cons y ys => simp at h
    | cons x xs =>
      cases b with
      | nil => simp at h
      | cons y ys =>
        have hlen : xs.length = ys.length := by simpa using h
        cases m with
        | false =>
          rw [show maskCells (false :: ms) (x :: xs) = maskCells ms xs from rfl,
            show maskCells (false :: ms) (y :: ys) = maskCells ms ys from rfl]
          exact ih xs ys hlen
        | true =>
          rw [show maskCells (true :: ms) (x :: xs) = x :: maskCells ms xs
              from rfl,
            show maskCells (true :: ms) (y :: ys) = y :: maskCells ms ys
              from rfl]
          simp [ih xs ys hlen]

theorem mem_selectCols (df : DF) (names : List String) (c : Col)
    (h : c ∈ (selectCols df names).cols) : c ∈ df.cols := by
  induction names with
  | nil => simp [selectCols] at h
  | cons n ns ih =>
    simp only [selectCols, List.foldr_cons, List.mem_append] at h
    rcases h with h | h
    · exact (List.mem_filter.mp h).1
    · exact ih (by simpa [selectCols] using h)

theorem mem_applyMask (df : DF) (mask : List Bool) (c1 : Col)
    (h : c1 ∈ (applyMask df mask).cols) :
    ∃ c ∈ df.cols, c1 = ⟨c.name, maskCells mask c.cells⟩ := by
  simp only [applyMask, List.mem_map] at h
  obtain ⟨c, hc, he⟩ := h
  exact ⟨c, hc, he.symm⟩

theorem mem_names_iff_countLabel (df : DF) (t : String) :
    t ∈ df.names ↔ 1 ≤ countLabel df t := by
  simp only [DF.names, countLabel, List.mem_map]
  constructor
  · rintro ⟨c, hc, hname⟩
    have : c ∈ df.cols.filter (fun x => x.name = t) :=
      List.mem_filter.mpr ⟨hc, by simpa using hname⟩
    have := List.length_pos_of_mem this
    omega
  · intro h
    have hne : df.cols.filter (fun x => x.name = t) ≠ [] := by
      intro hnil
      rw [hnil] at h
      simp at h
    obtain ⟨c, hc⟩ := List.exists_mem_of_ne_nil _ hne
    refine ⟨c, (List.mem_filter.mp hc).1, by simpa using (List.mem_filter.mp hc).2⟩

theorem countLabel_appendCol (df : DF) (n : String) (v : Val) (t : String) :
    countLabel (appendCol df n v) t
      = countLabel df t + (if n = t then 1 else 0) := by
  simp only [countLabel, appendCol, List.filter_append, List.length_append]
  by_cases h : n = t <;> simp [List.filter_cons, h]

theorem countLabel_setCol (df : DF) (n : String) (cs : List Val) (t : String) :
    countLabel (setCol df n cs) t = countLabel df t := by
  simp only [countLabel, setCol]
  rw [filter_name_map df.cols _ (fun c => by by_cases hc : c.name = n <;> simp [hc]) t]
  simp

theorem countLabel_ensureCols (df : DF) (defaults : List (String × Val))
    (t : String) :
    countLabel (ensureCols df defaults) t
      = if countLabel df t = 0 ∧ t ∈ defaults.map Prod.fst then 1
        else countLabel df t := by
  induction defaults generalizing df with
  | nil => simp [ensureCols]
  | cons nv rest ih =>
    rcases nv with ⟨n, v⟩
    by_cases hmem : n ∈ df.names
    · have hstep : ensureCols df ((n, v) :: rest) = ensureCols df rest := by
        simp [ensureCols, hmem]
      rw [hstep, ih df]
      by_cases ht : t = n
      · subst ht
        have hpos : 1 ≤ countLabel df t := (mem_names_iff_countLabel df t).mp hmem
        have hz : ¬ countLabel df t = 0 := by omega
        simp [hz]
      · have hiff : (t ∈ n :: List.map Prod.fst rest)
            ↔ t ∈ List.map Prod.fst rest := by
          simp [List.mem_cons, ht]
        simp only [List.map_cons, hiff]
    · have hstep : ensureCols df ((n, v) :: rest)
          = ensureCols (appendCol df n v) rest := by
        simp [ensureCols, hmem]
      rw [hstep, ih (appendCol df n v)]
      have hzero : countLabel df n = 0 := by
        by_contra hne
        exact hmem ((mem_names_iff_countLabel df n).mpr (by omega))
      by_cases ht : t = n
      · subst ht
        rw [countLabel_appendCol]
        simp [hzero]
      · rw [countLabel_appendCol]
        have hnt : ¬ n = t := fun he => ht he.symm
        have hiff : (t ∈ n :: List.map Prod.fst rest)
            ↔ t ∈ List.map Prod.fst rest := by
          simp [List.mem_cons, ht]
        simp only [List.map_cons, hiff, hnt, if_false, Nat.add_zero]

theorem ensureCols_cols_mem (df : DF) (defaults : List (String × Val)) (c : Col)
    (h : c ∈ (ensureCols df defaults).cols) :
    c ∈ df.cols ∨ ∃ nv ∈ defaults, ∃ k, c = ⟨nv.1, List.replicate k nv.2⟩ := by
  induction defaults generalizing df with
  | nil => exact Or.inl (by simpa [ensureCols] using h)
  | cons nv rest ih =>
    by_cases hmem : nv.1 ∈ df.names
    · have hstep : ensureCols df (nv :: rest) = ensureCols df rest := by
        simp [ensureCols, hmem]
      rw [hstep] at h
      rcases ih df h with h1 | ⟨nv2, hnv2, k, he⟩
      · exact Or.inl h1
      · exact Or.inr ⟨nv2, List.mem_cons_of_mem nv hnv2, k, he⟩
    · have hstep : ensureCols df (nv :: rest)
          = ensureCols (appendCol df nv.1 nv.2) rest := by
        simp [ensureCols, hmem]
      rw [hstep] at h
      rcases ih (appendCol df nv.1 nv.2) h with h1 | ⟨nv2, hnv2, k, he⟩
      · simp only [appendCol, List.mem_append, List.mem_singleton] at h1
        rcases h1 with h1 | h1
        · exact Or.inl h1
        · exact Or.inr ⟨nv, List.mem_cons_self nv rest, df.numRows, h1⟩
      · exact Or.inr ⟨nv2, List.mem_cons_of_mem nv hnv2, k, he⟩

theorem allZeroAt_setCol_ne (df : DF) (n m : String) (cs : List Val)
    (h : n ≠ m) (hz : allZeroAt df n) : allZeroAt (setCol df m cs) n := by
  intro c1 hc1 hname x hx
  simp only [setCol, List.mem_map] at hc1
  obtain ⟨c, hc, he⟩ := hc1
  by_cases hcm : c.name = m
  · rw [if_pos hcm] at he
    subst he
    simp only at hname
    exact absurd (hname.symm.trans hcm) h
  · rw [if_neg hcm] at he
    subst he
    exact hz c hc hname x hx

theorem allZeroAt_setCol_self (df : DF) (n : String) (cs : List Val)
    (hcs : ∀ x ∈ cs, x = Val.num 0) (hz : allZeroAt df n) :
    allZeroAt (setCol df n cs) n := by
  intro c1 hc1 hname x hx
  simp only [setCol, List.mem_map] at hc1
  obtain ⟨c, hc, he⟩ := hc1
  by_cases hcm : c.name = n
  · rw [if_pos hcm] at he
    subst he
    exact hcs x (by simpa using hx)
  · rw [if_neg hcm] at he
    subst he
    exact hz c hc hname x hx

theorem allZeroAt_applyMask (df : DF) (n : String) (mask : List Bool)
    (hz : allZeroAt df n) : allZeroAt (applyMask df mask) n := by
  intro c1 hc1 hname x hx
  obtain ⟨c, hc, he⟩ := mem_applyMask df mask c1 hc1
  subst he
  exact hz c hc hname x (mem_maskCells mask c.cells x hx)

theorem allZeroAt_getSeriesE (df : DF) (n : String) (cells : List Val)
    (h : getSeriesE df n = .ok cells) (hz : allZeroAt df n) :
    ∀ x ∈ cells, x = Val.num 0 := by
  obtain ⟨c0, _, hname, hcells, hmem⟩ := filter_single_of_getSeriesE df n cells h
  intro x hx
  exact hz c0 hmem hname x (hcells ▸ hx)

theorem getSeriesE_dup (df : DF) (n : String) (h : 2 ≤ countLabel df n) :
    getSeriesE df n = .error "duplicate column labels" := by
  unfold countLabel at h
  unfold getSeriesE
  rcases hf : df.cols.filter (fun c => c.name = n) with _ | ⟨a, _ | ⟨b, l⟩⟩
  · rw [hf] at h; simp at h
  · rw [hf] at h; simp at h
  · rw [hf]

theorem getSeriesE_ok_of_one (df : DF) (n : String) (h : countLabel df n = 1) :
    ∃ cs, getSeriesE df n = .ok cs := by
  unfold countLabel at h
  unfold getSeriesE
  rcases hf : df.cols.filter (fun c => c.name = n) with _ | ⟨a, _ | ⟨b, l⟩⟩
  · rw [hf] at h; simp at h
  · exact ⟨a.cells, by rw [hf]⟩
  · rw [hf] at h; simp at h

theorem lookupAssoc_append (m l : List (String × String)) (k : String) :
    lookupAssoc (m ++ l) k
      = match lookupAssoc m k with
        | some v => some v
        | none => lookupAssoc l k := by
  induction m with
  | nil => simp [lookupAssoc]
  | cons p rest ih =>
    by_cases hp : p.1 = k
    · simp [lookupAssoc, hp]
    · simp [lookupAssoc, hp, ih]

theorem lookupAssoc_none_of_not_any (m : List (String × String)) (k : String)
    (h : m.any (fun p => p.1 = k) = false) : lookupAssoc m k = none := by
  induction m with
  | nil => rfl
  | cons p rest ih =>
    simp only [List.any_cons, Bool.or_eq_false_iff] at h
    have hp : ¬ p.1 = k := by simpa using h.1
    simp [lookupAssoc, hp, ih h.2]

theorem lookupAssoc_map_overwrite_ne (m : List (String × String))
    (k v key : String) (hk : key ≠ k) :
    lookupAssoc (m.map (fun p => if p.1 = k then (k, v) else p)) key
      = lookupAssoc m key := by
  induction m with
  | nil => rfl
  | cons p rest ih =>
    by_cases hp : p.1 = k
    · have h1 : ¬ (k = key) := fun he => hk he.symm
      have h2 : ¬ (p.1 = key) := by rw [hp]; exact h1
      simp [lookupAssoc, hp, h1, h2, ih]
    · simp [lookupAssoc, hp, ih]

theorem lookupAssoc_map_overwrite_eq (m : List (String × String)) (k v : String)
    (h : m.any (fun p => p.1 = k) = true) :
    lookupAssoc (m.map (fun p => if p.1 = k then (k, v) else p)) k
      = some v := by
  induction m with
  | nil => simp at h
  | cons p rest ih =>
    by_cases hp : p.1 = k
    · simp [lookupAssoc, hp]
    · simp only [List.any_cons] at h
      have h2 : rest.any (fun p => p.1 = k) = true := by
        rcases Bool.or_eq_true_iff.mp h with h1 | h1
        · exact absurd (by simpa using h1) hp
        · exact h1
      simp [lookupAssoc, hp, ih h2]

theorem lookupAssoc_insertAssoc (m : List (String × String)) (k v key : String) :
    lookupAssoc (insertAssoc m k v) key
      = if key = k then some v else lookupAssoc m key := by
  unfold insertAssoc
  by_cases hany : m.any (fun p => p.1 = k) = true
  · rw [if_pos hany]
    by_cases hk : key = k
    · subst hk
      rw [if_pos rfl]
      exact lookupAssoc_map_overwrite_eq m key v hany
    · rw [if_neg hk]
      exact lookupAssoc_map_overwrite_ne m k v key hk
  · rw [if_neg hany]
    rw [lookupAssoc_append]
    by_cases hk : key = k
    · subst hk
      rw [lookupAssoc_none_of_not_any m key (Bool.eq_false_iff.mpr hany)]
      simp [lookupAssoc]
    · have hkk : ¬ (k = key) := fun he => hk he.symm
      rw [if_neg hk]
      cases hm : lookupAssoc m key with
      | some v2 => rfl
      | none => simp [lookupAssoc, hkk]

theorem lookupAssoc_foldl_insert (cols : List String)
    (m : List (String × String)) (tgt : String) (syns : List String)
    (c : String) :
    lookupAssoc
        (cols.foldl
          (fun acc cn => if cn = tgt ∨ cn ∈ syns then insertAssoc acc cn tgt
            else acc) m) c
      = if c ∈ cols ∧ (c = tgt ∨ c ∈ syns) then some tgt
        else lookupAssoc m c := by
  induction cols generalizing m with
  | nil => simp
  | cons cn rest ih =>
    simp only [List.foldl_cons]
    by_cases hcn : cn = tgt ∨ cn ∈ syns
    · rw [if_pos hcn, ih (insertAssoc m cn tgt)]
      by_cases hc : c ∈ rest ∧ (c = tgt ∨ c ∈ syns)
      · rw [if_pos hc, if_pos ⟨List.mem_cons_of_mem cn hc.1, hc.2⟩]
      · rw [if_neg hc, lookupAssoc_insertAssoc]
        by_cases hceq : c = cn
        · subst hceq
          rw [if_pos rfl, if_pos ⟨List.mem_cons_self c rest, hcn⟩]
        · rw [if_neg hceq]
          by_cases hcc : c ∈ cn :: rest ∧ (c = tgt ∨ c ∈ syns)
          · exact absurd
              ⟨(List.mem_cons.mp hcc.1).resolve_left hceq, hcc.2⟩ hc
          · rw [if_neg hcc]
    · rw [if_neg hcn, ih m]
      by_cases hc : c ∈ rest ∧ (c = tgt ∨ c ∈ syns)
      · rw [if_pos hc, if_pos ⟨List.mem_cons_of_mem cn hc.1, hc.2⟩]
      · rw [if_neg hc]
        by_cases hcc : c ∈ cn :: rest ∧ (c = tgt ∨ c ∈ syns)
        · exfalso
          rcases List.mem_cons.mp hcc.1 with rfl | hR
          · exact hcn hcc.2
          · exact hc ⟨hR, hcc.2⟩
        · rw [if_neg hcc]

theorem lastMatchFrom_init (c : String) (mapping : List (String × List String))
    (acc : Option String) :
    lastMatchFrom c mapping acc
      = match lastMatchFrom c mapping none with
        | some tg => some tg
        | none => acc := by
  induction mapping generalizing acc with
  | nil => simp [lastMatchFrom]
  | cons ts rest ih =>
    simp only [lastMatchFrom, List.foldl_cons]
    by_cases hp : c = ts.1 ∨ c ∈ ts.2
    · rw [if_pos hp, if_pos hp]
      have h1 := ih (some ts.1)
      simp only [lastMatchFrom] at h1
      rw [h1]
      cases hrest : rest.foldl
          (fun a ts2 => if c = ts2.1 ∨ c ∈ ts2.2 then some ts2.1 else a) none with
      | some tg => rfl
      | none => rfl
    · rw [if_neg hp, if_neg hp]
      have h1 := ih acc
      simp only [lastMatchFrom] at h1
      exact h1

theorem lookupAssoc_buildRenameMap (mapping : List (String × List String))
    (cols : List String) (c : String) (hc : c ∈ cols)
    (m : List (String × String)) :
    lookupAssoc
        (mapping.foldl
          (fun acc ts =>
            cols.foldl
              (fun a cn => if cn = ts.1 ∨ cn ∈ ts.2 then insertAssoc a cn ts.1
                else a) acc) m) c
      = match lastMatchFrom c mapping none with
        | some tg => some tg
        | none => lookupAssoc m c := by
  induction mapping generalizing m with
  | nil => simp [lastMatchFrom]
  | cons ts rest ih =>
    simp only [List.foldl_cons]
    rw [ih]
    rw [lookupAssoc_foldl_insert cols m ts.1 ts.2 c]
    have hinit : lastMatchFrom c (ts :: rest) none
        = match lastMatchFrom c rest none with
          | some tg => some tg
          | none => if c = ts.1 ∨ c ∈ ts.2 then some ts.1 else none := by
      simp only [lastMatchFrom, List.foldl_cons]
      exact lastMatchFrom_init c rest _
    rw [hinit]
    cases hrest : lastMatchFrom c rest none with
    | some tg => rfl
    | none =>
      by_cases hp : c = ts.1 ∨ c ∈ ts.2
      · rw [if_pos ⟨hc, hp⟩, if_pos hp]
      · rw [if_neg (fun hand => hp hand.2), if_neg hp]

theorem lookupAssoc_buildRenameMap_closed (cols : List String) (c : String)
    (mapping : List (String × List String)) (hc : c ∈ cols) :
    lookupAssoc (buildRenameMap cols mapping) c
      = match lastMatchFrom c mapping none with
        | some tg => some tg
        | none => none := by
  have h := lookupAssoc_buildRenameMap mapping cols c hc []
  simpa [buildRenameMap, lookupAssoc] using h

theorem renameWithSynonyms_length (df : DF)
    (mapping : List (String × List String)) :
    (renameWithSynonyms df mapping).cols.length = df.cols.length := by
  simp [renameWithSynonyms]

theorem filter_eq_single_col (df : DF) (n : String) (cells : List Val)
    (h : getSeriesE df n = .ok cells) :
    df.cols.filter (fun c => c.name = n) = [⟨n, cells⟩] := by
  obtain ⟨c0, hf, hn, hc, _⟩ := filter_single_of_getSeriesE df n cells h
  rw [hf]
  cases c0
  simp only at hn hc
  rw [hn, hc]

theorem zipRows_mask_fst (A B C D : List Val) (f : Val → Bool)
    (hB : B.length = A.length) (hC : C.length = A.length)
    (hD : D.length = A.length) :
    zipRows (maskCells (A.map f) A) (maskCells (A.map f) B)
        (maskCells (A.map f) C) (maskCells (A.map f) D)
      = (zipRows A B C D).filter (fun r => f r.1) := by
  induction A generalizing B C D with
  | nil =>
    have hB0 : B = [] := List.length_eq_zero.mp (by simpa using hB)
    have hC0 : C = [] := List.length_eq_zero.mp (by simpa using hC)
    have hD0 : D = [] := List.length_eq_zero.mp (by simpa using hD)
    subst hB0; subst hC0; subst hD0
    rfl
  | cons a as ih =>
    rcases B with _ | ⟨b, bs⟩
    · simp at hB
    rcases C with _ | ⟨c, cs⟩
    · simp at hC
    rcases D with _ | ⟨d, ds⟩
    · simp at hD
    have hBs : bs.length = as.length := by simpa using hB
    have hCs : cs.length = as.length := by simpa using hC
    have hDs : ds.length = as.length := by simpa using hD
    have hrows : zipRows (a :: as) (b :: bs) (c :: cs) (d :: ds)
        = (a, b, c, d) :: zipRows as bs cs ds := rfl
    cases hfa : f a with
    | true =>
      rw [List.map_cons, hfa]
      rw [show maskCells (true :: as.map f) (a :: as)
          = a :: maskCells (as.map f) as from rfl,
        show maskCells (true :: as.map f) (b :: bs)
          = b :: maskCells (as.map f) bs from rfl,
        show maskCells (true :: as.map f) (c :: cs)
          = c :: maskCells (as.map f) cs from rfl,
        show maskCells (true :: as.map f) (d :: ds)
          = d :: maskCells (as.map f) ds from rfl,
        hrows, List.filter_cons]
      simp only [hfa, if_true]
      rw [show zipRows (a :: maskCells (as.map f) as) (b :: maskCells (as.map f) bs)
          (c :: maskCells (as.map f) cs) (d :: maskCells (as.map f) ds)
          = (a, b, c, d) :: zipRows (maskCells (as.map f) as)
            (maskCells (as.map f) bs) (maskCells (as.map f) cs)
            (maskCells (as.map f) ds) from rfl]
      rw [ih bs cs ds hBs hCs hDs]
    | false =>
      rw [List.map_cons, hfa]
      rw [show maskCells (false :: as.map f) (a :: as)
          = maskCells (as.map f) as from rfl,
        show maskCells (false :: as.map f) (b :: bs)
          = maskCells (as.map f) bs from rfl,
        show maskCells (false :: as.map f) (c :: cs)
          = maskCells (as.map f) cs from rfl,
        show maskCells (false :: as.map f) (d :: ds)
          = maskCells (as.map f) ds from rfl,
        hrows, List.filter_cons]
      simp only [hfa, Bool.false_eq_true, if_false]
      rw [ih bs cs ds hBs hCs hDs]

theorem zipRows_mask_snd (A B C D : List Val) (f : Val → Bool)
    (hB : B.length = A.length) (hC : C.length = A.length)
    (hD : D.length = A.length) :
    zipRows (maskCells (B.map f) A) (maskCells (B.map f) B)
        (maskCells (B.map f) C) (maskCells (B.map f) D)
      = (zipRows A B C D).filter (fun r => f r.2.1) := by
  induction A generalizing B C D with
  | nil =>
    have hB0 : B = [] := List.length_eq_zero.mp (by simpa using hB)
    have hC0 : C = [] := List.length_eq_zero.mp (by simpa using hC)
    have hD0 : D = [] := List.length_eq_zero.mp (by simpa using hD)
    subst hB0; subst hC0; subst hD0
    rfl
  | cons a as ih =>
    rcases B with _ | ⟨b, bs⟩
    · simp at hB
    rcases C with _ | ⟨c, cs⟩
    · simp at hC
    rcases D with _ | ⟨d, ds⟩
    · simp at hD
    have hBs : bs.length = as.length := by simpa using hB
    have hCs : cs.length = as.length := by simpa using hC
    have hDs : ds.length = as.length := by simpa using hD
    have hrows : zipRows (a :: as) (b :: bs) (c :: cs) (d :: ds)
        = (a, b, c, d) :: zipRows as bs cs ds := rfl
    cases hfb : f b with
    | true =>
      rw [List.map_cons, hfb]
      rw [show maskCells (true :: bs.map f) (a :: as)
          = a :: maskCells (bs.map f) as from rfl,
        show maskCells (true :: bs.map f) (b :: bs)
          = b :: maskCells (bs.map f) bs from rfl,
        show maskCells (true :: bs.map f) (c :: cs)
          = c :: maskCells (bs.map f) cs from rfl,
        show maskCells (true :: bs.map f) (d :: ds)
          = d :: maskCells (bs.map f) ds from rfl,
        hrows, List.filter_cons]
      simp only [hfb, if_true]
      rw [show zipRows (a :: maskCells (bs.map f) as) (b :: maskCells (bs.map f) bs)
          (c :: maskCells (bs.map f) cs) (d :: maskCells (bs.map f) ds)
          = (a, b, c, d) :: zipRows (maskCells (bs.map f) as)
            (maskCells (bs.map f) bs) (maskCells (bs.map f) cs)
            (maskCells (bs.map f) ds) from rfl]
      rw [ih bs cs ds hBs hCs hDs]
    | false =>
      rw [List.map_cons, hfb]
      rw [show maskCells (false :: bs.map f) (a :: as)
          = maskCells (bs.map f) as from rfl,
        show maskCells (false :: bs.map f) (b :: bs)
          = maskCells (bs.map f) bs from rfl,
        show maskCells (false :: bs.map f) (c :: cs)
          = maskCells (bs.map f) cs from rfl,
        show maskCells (false :: bs.map f) (d :: ds)
          = maskCells (bs.map f) ds from rfl,
        hrows, List.filter_cons]
      simp only [hfb, Bool.false_eq_true, if_false]
      rw [ih bs cs ds hBs hCs hDs]

theorem salesRows_eq_nil (df : DF) (h : ∀ c ∈ df.cols, c.cells = []) :
    salesRows df = [] := by
  rcases hc : df.cols with _ | ⟨a, _ | ⟨b, _ | ⟨c, _ | ⟨d, _ | _⟩⟩⟩⟩ <;>
    simp only [salesRows, hc]
  have ha : a.cells = [] := h a (by rw [hc]; simp)
  simp [zipRows, ha]

/-! ### Claim theorems: transaction service -/

/-- C1: `record_sale` inserts a SaleRecord with the given fields dated
today; when a stock row for the item exists (the first row found, decomposed
explicitly), only that row changes — its quantity drops by `qty` and its
`last_updated` becomes today; with no matching stock row the Stock table is
completely unchanged and no row is created. -/
theorem C1_record_sale_spec (s : Store) (today : Int) (item : String)
    (qty unit_price total : Rat) (customer : String) :
    (add_sale s today item qty unit_price total customer).1.sales
        = s.sales ++ [⟨s.nextSaleId, item, qty, unit_price, total, customer, today⟩] ∧
    (findStock s.stock item = none →
      (add_sale s today item qty unit_price total customer).1.stock = s.stock) ∧
    (∀ pre r post, s.stock = pre ++ r :: post → r.item = item →
      (∀ x ∈ pre, x.item ≠ item) →
      (add_sale s today item qty unit_price total customer).1.stock
        = pre ++ { r with qty := r.qty - qty, last_updated := today } :: post) := by
  refine ⟨rfl, ?_, ?_⟩
  · intro hnone
    simp [add_sale, hnone]
  · intro pre r post hs hr hpre
    have hfound : findStock s.stock item = some r := by
      rw [hs]; exact findStock_decomp pre r post item hpre hr
    have hupd :
        updateFirst (fun x => x.item = item)
          (fun x => { x with qty := x.qty - qty, last_updated := today }) s.stock
          = pre ++ { r with qty := r.qty - qty, last_updated := today } :: post := by
      rw [hs]
      exact updateFirst_decomp _ _ pre r post
        (fun x hx => by simpa using hpre x hx) (by simpa using hr)
    simp [add_sale, hfound, hupd]

/-- C1 witness: concrete run with a matching "Sugar" stock row of qty 10;
the sale is appended and the stock row drops to 8. -/
theorem C1_record_sale_spec_witness :
    (([] : List StockRecord) = [] → True) ∧
    (add_sale ⟨[], [⟨1, "Sugar", 10, 5, 40, 0⟩], 1, 2⟩ 3 "Sugar" 2 50 100 "John").1.sales
      = [⟨1, "Sugar", 2, 50, 100, "John", 3⟩] ∧
    (add_sale ⟨[], [⟨1, "Sugar", 10, 5, 40, 0⟩], 1, 2⟩ 3 "Sugar" 2 50 100 "John").1.stock
      = [⟨1, "Sugar", 8, 5, 40, 3⟩] := by
  have h := C1_record_sale_spec ⟨[], [⟨1, "Sugar", 10, 5, 40, 0⟩], 1, 2⟩ 3 "Sugar" 2 50 100 "John"
  refine ⟨fun _ => trivial, by simpa using h.1, ?_⟩
  have h3 := h.2.2 [] ⟨1, "Sugar", 10, 5, 40, 0⟩ [] rfl rfl (by simp)
  rw [h3]
  norm_num

/-- C2: `record_sale` is atomic — with any combination of injected failures
(insert, stock query, commit), either the call reports no sale id and the
durable store is exactly the pre-call store, or it reports the id and the
store is exactly the full success-path result (sale insert and stock
decrement persist together). -/
theorem C2_record_sale_atomic (db : Store) (today : Int) (item : String)
    (qty unit_price total : Rat) (customer : String) (f : FailSpec) :
    ((add_saleRun db today item qty unit_price total customer f).2 = none →
      (add_saleRun db today item qty unit_price total customer f).1 = db) ∧
    (∀ i, (add_saleRun db today item qty unit_price total customer f).2 = some i →
      (add_saleRun db today item qty unit_price total customer f).1
          = (add_sale db today item qty unit_price total customer).1 ∧
      i = (add_sale db today item qty unit_price total customer).2) := by
  rcases f with ⟨fi, fq, fc⟩
  cases fi <;> cases fq <;> cases fc <;>
    first
      | exact ⟨fun h => Option.noConfusion h,
          fun i hi => ⟨rfl, (Option.some.inj hi).symm⟩⟩
      | exact ⟨fun h => rfl, fun i hi => Option.noConfusion hi⟩

/-- C2 witness: with a failing commit the store is untouched; with no
failures the sale id is returned and both writes persist. -/
theorem C2_record_sale_atomic_witness :
    ((add_saleRun ⟨[], [⟨1, "Sugar", 10, 5, 40, 0⟩], 1, 2⟩ 3 "Sugar" 2 50 100 "John"
        ⟨false, false, true⟩).2 = none →
      (add_saleRun ⟨[], [⟨1, "Sugar", 10, 5, 40, 0⟩], 1, 2⟩ 3 "Sugar" 2 50 100 "John"
        ⟨false, false, true⟩).1 = ⟨[], [⟨1, "Sugar", 10, 5, 40, 0⟩], 1, 2⟩) ∧
    (∀ i, (add_saleRun ⟨[], [⟨1, "Sugar", 10, 5, 40, 0⟩], 1, 2⟩ 3 "Sugar" 2 50 100 "John"
        ⟨false, false, true⟩).2 = some i →
      (add_saleRun ⟨[], [⟨1, "Sugar", 10, 5, 40, 0⟩], 1, 2⟩ 3 "Sugar" 2 50 100 "John"
        ⟨false, false, true⟩).1
        = (add_sale ⟨[], [⟨1, "Sugar", 10, 5, 40, 0⟩], 1, 2⟩ 3 "Sugar" 2 50 100 "John").1 ∧
      i = (add_sale ⟨[], [⟨1, "Sugar", 10, 5, 40, 0⟩], 1, 2⟩ 3 "Sugar" 2 50 100 "John").2) :=
  C2_record_sale_atomic ⟨[], [⟨1, "Sugar", 10, 5, 40, 0⟩], 1, 2⟩ 3 "Sugar" 2 50 100 "John"
    ⟨false, false, true⟩

/-- C7: `upsert_stock` is an idempotent keyed upsert.  With at most one
stock row per item beforehand: uniqueness is preserved; an existing row
yields `(existing_id, false)` and an absent one `(new_id, true)`; a second
identical call changes nothing and reports `created = false`; afterwards
exactly one row for the item exists, carrying the given values. -/
theorem C7_upsert_idempotent (s : Store) (today : Int) (item : String)
    (qty threshold unit_cost : Rat) (huniq : uniqueItems s.stock) :
    uniqueItems (add_stock_safe s today item qty threshold unit_cost).1.stock ∧
    (∀ ex, findStock s.stock item = some ex →
      (add_stock_safe s today item qty threshold unit_cost).2 = (ex.id, false)) ∧
    (findStock s.stock item = none →
      (add_stock_safe s today item qty threshold unit_cost).2 = (s.nextStockId, true)) ∧
    (add_stock_safe (add_stock_safe s today item qty threshold unit_cost).1
        today item qty threshold unit_cost).1.stock
      = (add_stock_safe s today item qty threshold unit_cost).1.stock ∧
    (add_stock_safe (add_stock_safe s today item qty threshold unit_cost).1
        today item qty threshold unit_cost).2.2 = false ∧
    (add_stock_safe s today item qty threshold unit_cost).1.stock.filter
        (fun x => x.item = item)
      = [⟨(add_stock_safe s today item qty threshold unit_cost).2.1,
          item, qty, threshold, unit_cost, today⟩] := by
  cases hfound : findStock s.stock item with
  | none =>
    have hall : ∀ r ∈ s.stock, r.item ≠ item :=
      (findStock_eq_none_iff s.stock item).mp hfound
    have h1 : add_stock_safe s today item qty threshold unit_cost
        = (⟨s.sales,
            s.stock ++ [⟨s.nextStockId, item, qty, threshold, unit_cost, today⟩],
            s.nextSaleId, s.nextStockId + 1⟩, s.nextStockId, true) := by
      simp [add_stock_safe, hfound]
    rw [h1]
    have hfound2 :
        findStock (s.stock ++ [⟨s.nextStockId, item, qty, threshold, unit_cost, today⟩])
            item
          = some ⟨s.nextStockId, item, qty, threshold, unit_cost, today⟩ :=
      findStock_decomp s.stock _ [] item hall rfl
    have hupd :
        updateFirst (fun x => decide (x.item = item))
            (fun x => ⟨x.id, x.item, qty, threshold, unit_cost, today⟩)
            (s.stock ++ [⟨s.nextStockId, item, qty, threshold, unit_cost, today⟩])
          = s.stock ++ [⟨s.nextStockId, item, qty, threshold, unit_cost, today⟩] :=
      updateFirst_decomp _ _ s.stock _ []
        (fun x hx => by simpa using hall x hx) (by simp)
    refine ⟨?_, ?_, fun _ => rfl, ?_, ?_, ?_⟩
    · rw [uniqueItems] at huniq ⊢
      refine (List.pairwise_append).mpr ⟨huniq, by simp, ?_⟩
      intro a ha b hb
      simp only [List.mem_singleton] at hb
      subst hb
      exact hall a ha
    · intro ex hex
      exact Option.noConfusion hex
    · simp only [add_stock_safe, hfound2]
      simpa using hupd
    · simp only [add_stock_safe, hfound2]
    · rw [List.filter_append]
      have hnil : s.stock.filter (fun x => decide (x.item = item)) = [] :=
        List.filter_eq_nil_iff.mpr (fun a ha => by simpa using hall a ha)
      simp [hnil]
  | some ex =>
    obtain ⟨hri, pre, post, hs, hpre⟩ := findStock_some_decomp s.stock item ex hfound
    have hpost : ∀ y ∈ post, y.item ≠ item := by
      have huniq2 := huniq
      rw [uniqueItems, hs] at huniq2
      have hcons := ((List.pairwise_append).mp huniq2).2.1
      have hx := (List.pairwise_cons.mp hcons).1
      intro y hy hyi
      exact hx y hy (by rw [hri, hyi])
    have h1 : add_stock_safe s today item qty threshold unit_cost
        = (⟨s.sales,
            updateFirst (fun x => decide (x.item = item))
              (fun x => ⟨x.id, x.item, qty, threshold, unit_cost, today⟩) s.stock,
            s.nextSaleId, s.nextStockId⟩, ex.id, false) := by
      simp [add_stock_safe, hfound]
    rw [h1]
    have hupd :
        updateFirst (fun x => decide (x.item = item))
            (fun x => ⟨x.id, x.item, qty, threshold, unit_cost, today⟩) s.stock
          = pre ++ ⟨ex.id, ex.item, qty, threshold, unit_cost, today⟩ :: post := by
      rw [hs]
      exact updateFirst_decomp _ _ pre ex post
        (fun x hx => by simpa using hpre x hx) (by simpa using hri)
    rw [hupd]
    have hfound2 :
        findStock (pre ++ ⟨ex.id, ex.item, qty, threshold, unit_cost, today⟩ :: post)
            item
          = some ⟨ex.id, ex.item, qty, threshold, unit_cost, today⟩ :=
      findStock_decomp pre _ post item hpre hri
    have hupd2 :
        updateFirst (fun x => decide (x.item = item))
            (fun x => ⟨x.id, x.item, qty, threshold, unit_cost, today⟩)
            (pre ++ ⟨ex.id, ex.item, qty, threshold, unit_cost, today⟩ :: post)
          = pre ++ ⟨ex.id, ex.item, qty, threshold, unit_cost, today⟩ :: post :=
      updateFirst_decomp _ _ pre _ post
        (fun x hx => by simpa using hpre x hx) (by simpa using hri)
    refine ⟨?_, ?_, ?_, ?_, ?_, ?_⟩
    · rw [uniqueItems_iff_map]
      have hitems :
          (pre ++ ⟨ex.id, ex.item, qty, threshold, unit_cost, today⟩ :: post).map
              StockRecord.item
            = s.stock.map StockRecord.item := by
        rw [← hupd]
        exact updateFirst_items (fun x => decide (x.item = item))
          (fun x => ⟨x.id, x.item, qty, threshold, unit_cost, today⟩)
          (fun r => rfl) s.stock
      rw [hitems]
      exact (uniqueItems_iff_map s.stock).mp huniq
    · intro ex2 hex2
      cases hex2
      rfl
    · intro hnone
      exact Option.noConfusion hnone
    · simp only [add_stock_safe, hfound2]
      simpa using hupd2
    · simp only [add_stock_safe, hfound2]
    · rw [List.filter_append]
      have hnil1 : pre.filter (fun x => decide (x.item = item)) = [] :=
        List.filter_eq_nil_iff.mpr (fun a ha => by simpa using hpre a ha)
      have hnil2 : post.filter (fun x => decide (x.item = item)) = [] :=
        List.filter_eq_nil_iff.mpr (fun a ha => by simpa using hpost a ha)
      simp [hnil1, hnil2, List.filter_cons, hri]

/-- C7 witness: upserting "Sugar" twice into an empty store leaves exactly
one Sugar row with the given values; the second call reports an update. -/
theorem C7_upsert_idempotent_witness :
    uniqueItems (Store.mk [] [] 1 1).stock ∧
    (uniqueItems (add_stock_safe ⟨[], [], 1, 1⟩ 0 "Sugar" 10 5 40).1.stock ∧
    (∀ ex, findStock (Store.mk [] [] 1 1).stock "Sugar" = some ex →
      (add_stock_safe ⟨[], [], 1, 1⟩ 0 "Sugar" 10 5 40).2 = (ex.id, false)) ∧
    (findStock (Store.mk [] [] 1 1).stock "Sugar" = none →
      (add_stock_safe ⟨[], [], 1, 1⟩ 0 "Sugar" 10 5 40).2 = ((Store.mk [] [] 1 1).nextStockId, true)) ∧
    (add_stock_safe (add_stock_safe ⟨[], [], 1, 1⟩ 0 "Sugar" 10 5 40).1
        0 "Sugar" 10 5 40).1.stock
      = (add_stock_safe ⟨[], [], 1, 1⟩ 0 "Sugar" 10 5 40).1.stock ∧
    (add_stock_safe (add_stock_safe ⟨[], [], 1, 1⟩ 0 "Sugar" 10 5 40).1
        0 "Sugar" 10 5 40).2.2 = false ∧
    (add_stock_safe ⟨[], [], 1, 1⟩ 0 "Sugar" 10 5 40).1.stock.filter
        (fun x => x.item = "Sugar")
      = [⟨(add_stock_safe ⟨[], [], 1, 1⟩ 0 "Sugar" 10 5 40).2.1,
          "Sugar", 10, 5, 40, 0⟩]) :=
  ⟨by simp [uniqueItems],
   C7_upsert_idempotent ⟨[], [], 1, 1⟩ 0 "Sugar" 10 5 40 (by simp [uniqueItems])⟩

/-- C9: the two duplicated `StockService.update_stock` definitions and
`BillingService.add_stock_safe` agree on the resulting store for every
input — the shadowing is behaviorally invisible for the upsert contract. -/
theorem C9_stock_service_definitions_agree (s : Store) (today : Int)
    (item : String) (qty threshold unit_cost : Rat) :
    update_stockFirstDef s today item qty threshold unit_cost
        = update_stockSecondDef s today item qty threshold unit_cost ∧
    update_stockFirstDef s today item qty threshold unit_cost
        = (add_stock_safe s today item qty threshold unit_cost).1 := by
  refine ⟨rfl, ?_⟩
  cases hfound : findStock s.stock item <;>
    simp [update_stockFirstDef, add_stock_safe, hfound]

/-! ### Claim C8: the forecast -/

/-- C8 counterexample: `get_sales_forecast` averages over individual sale
rows, not per-day totals — on `forecastStore` at day 10 the code returns
`avg(10, 20, 30) * 7 = 140`, while the claim's per-day-totals reading gives
`(10 + 20 + 30) = 60`; a per-day average over only the days that have sales
would give `avg(30, 30) * 7 = 210`.  None of the per-day readings equals the
code's value. -/
theorem C8_forecast_cex :
    get_sales_forecast forecastStore 10 = 140 ∧
    claimForecastPerDay forecastStore 10 = 60 ∧
    (((List.range 7).map
        (fun k => ((forecastStore.sales.filter (fun r => r.date = 10 - (k : Int))).map
          SaleRecord.total).sum)).filter (fun q => q ≠ 0)).sum
      / ((((List.range 7).map
        (fun k => ((forecastStore.sales.filter (fun r => r.date = 10 - (k : Int))).map
          SaleRecord.total).sum)).filter (fun q => q ≠ 0)).length : Rat) * 7 = 210 ∧
    get_sales_forecast forecastStore 10 ≠ claimForecastPerDay forecastStore 10 := by
  refine ⟨?_, ?_, ?_, ?_⟩ <;>
    norm_num [get_sales_forecast, claimForecastPerDay, forecastStore, List.range_succ]

/-- C8 (amended): `get_sales_forecast` returns 7 times the mean of the
individual sale rows' totals over the rows dated on or after `today - 7`
(stated multiplicatively), and returns 0 when no sale row lies in that
window. -/
theorem C8_forecast_row_average (s : Store) (today : Int) :
    ((∀ r ∈ s.sales, ¬ (today - 7 ≤ r.date)) → get_sales_forecast s today = 0) ∧
    ((s.sales.filter (fun r => today - 7 ≤ r.date)).length : Rat)
        * get_sales_forecast s today
      = 7 * ((s.sales.filter (fun r => today - 7 ≤ r.date)).map
          SaleRecord.total).sum := by
  constructor
  · intro h
    have hnil : s.sales.filter (fun r => decide (today - 7 ≤ r.date)) = [] :=
      List.filter_eq_nil_iff.mpr (fun a ha => by simpa using h a ha)
    simp only [get_sales_forecast, hnil]
    rfl
  · by_cases hw : s.sales.filter (fun r => decide (today - 7 ≤ r.date)) = []
    · simp only [get_sales_forecast, hw]
      norm_num
    · have hne : (s.sales.filter (fun r => decide (today - 7 ≤ r.date))).isEmpty
          = false := by
        simpa [List.isEmpty_iff] using hw
      have hlen : ((s.sales.filter (fun r => decide (today - 7 ≤ r.date))).length
          : Rat) ≠ 0 := by
        simpa [Nat.cast_eq_zero, List.length_eq_zero] using hw
      simp only [get_sales_forecast, hne, Bool.false_eq_true, if_false]
      generalize hg : s.sales.filter (fun r => decide (today - 7 ≤ r.date)) = w
        at hlen ⊢
      field_simp
      ring

/-- C8 witness: the empty store has no sale rows in any window, and the
forecast there is 0. -/
theorem C8_forecast_row_average_witness :
    (∀ r ∈ (Store.mk [] [] 1 1).sales, ¬ ((0 : Int) - 7 ≤ r.date)) ∧
    get_sales_forecast ⟨[], [], 1, 1⟩ 0 = 0 :=
  ⟨by simp, (C8_forecast_row_average ⟨[], [], 1, 1⟩ 0).1 (by simp)⟩

/-! ### Claims C3 and C10: coercion defaults and the missing-qty case -/

/-- C3 counterexample: a Sales row whose qty fails to parse ("abc") is not
zeroed and dropped as the claim states — the normalizer keeps the row with
qty = 1 (`fillna(1)`). -/
theorem C3_unparseable_qty_cex :
    normalizeSalesDF unparsedQtyDF
      = .ok ⟨[⟨"item", [.str "Tea"]⟩, ⟨"qty", [.num 1]⟩,
              ⟨"unit_price", [.num 0]⟩, ⟨"customer", [.str ""]⟩]⟩ ∧
    salesRows ⟨[⟨"item", [.str "Tea"]⟩, ⟨"qty", [.num 1]⟩,
              ⟨"unit_price", [.num 0]⟩, ⟨"customer", [.str ""]⟩]⟩
      = [(.str "Tea", .num 1, .num 0, .str "")] ∧
    Val.num 1 ≠ Val.num 0 := by
  refine ⟨rfl, rfl, by decide⟩

/-- C3 (amended): a value failing numeric parsing becomes 1 in the Sales
`qty` coercion (so the row passes the qty > 0 filter), 0 in the `unit_price`
coercion, and 0 in the Expenses `amount` coercion (so that row is dropped by
the amount > 0 filter). -/
theorem C3_coercion_defaults (v : Val) (hv : toNumericVal v = none) :
    coerceQtyVal v = .num 1 ∧ numPos (coerceQtyVal v) = true ∧
    coercePriceVal v = .num 0 ∧
    coerceAmountVal v = .num 0 ∧ numPos (coerceAmountVal v) = false := by
  have h1 : coerceQtyVal v = .num 1 := by simp [coerceQtyVal, hv]
  have h3 : coercePriceVal v = .num 0 := by simp [coercePriceVal, hv]
  have h4 : coerceAmountVal v = .num 0 := by simp [coerceAmountVal, hv]
  exact ⟨h1, by rw [h1]; simp [numPos], h3, h4, by rw [h4]; simp [numPos]⟩

/-- C3 witness: the string "abc" does not parse; its qty coercion is 1 and
its amount coercion is 0. -/
theorem C3_coercion_defaults_witness :
    toNumericVal (.str "abc") = none ∧
    (coerceQtyVal (.str "abc") = .num 1 ∧ numPos (coerceQtyVal (.str "abc")) = true ∧
    coercePriceVal (.str "abc") = .num 0 ∧
    coerceAmountVal (.str "abc") = .num 0 ∧
    numPos (coerceAmountVal (.str "abc")) = false) :=
  ⟨rfl, C3_coercion_defaults (.str "abc") rfl⟩

/-- C10: when no input column resolves to the Sales `qty` field, the
synthesized qty column defaults to 0, every row fails the qty > 0 filter,
the normalizer output has no rows, and the bulk import loop applies zero
rows to any store. -/
theorem C10_missing_qty_empty_import (df : DF)
    (h : "qty" ∉ (renameWithSynonyms df salesMapping).names) (out : DF)
    (hout : normalizeSalesDF df = .ok out) :
    (∀ c ∈ out.cols, c.cells = []) ∧ salesRows out = [] ∧
    ∀ (s : Store) (today : Int),
      applySalesRows s today (salesRows out) = (s, 0) := by
  have hz1 : allZeroAt
      (ensureCols (renameWithSynonyms df salesMapping) salesDefaults) "qty" := by
    intro c hc hname x hx
    rcases ensureCols_cols_mem _ _ c hc with h1 | ⟨nv, hnv, k, he⟩
    · exact absurd (List.mem_map.mpr ⟨c, h1, hname⟩) h
    · subst he
      simp only at hname hx
      simp only [salesDefaults, List.mem_cons, List.not_mem_nil, or_false]
        at hnv
      rcases hnv with rfl | rfl | rfl | rfl
      · exact absurd hname (by decide)
      · exact List.eq_of_mem_replicate hx
      · exact absurd hname (by decide)
      · exact absurd hname (by decide)
  simp only [normalizeSalesDF] at hout
  cases h1 : getSeriesE
      (ensureCols (renameWithSynonyms df salesMapping) salesDefaults) "item" with
  | error e =>
    simp only [h1] at hout
    exact Except.noConfusion hout
  | ok itemS =>
  simp only [h1] at hout
  cases h2 : getSeriesE
      (setCol (ensureCols (renameWithSynonyms df salesMapping) salesDefaults)
        "item" (itemS.map coerceTextVal)) "customer" with
  | error e =>
    simp only [h2] at hout
    exact Except.noConfusion hout
  | ok custS =>
  simp only [h2] at hout
  cases h3 : getSeriesE
      (setCol (setCol (ensureCols (renameWithSynonyms df salesMapping) salesDefaults)
        "item" (itemS.map coerceTextVal)) "customer" (custS.map coerceTextVal))
      "qty" with
  | error e =>
    simp only [h3] at hout
    exact Except.noConfusion hout
  | ok qtyS =>
  simp only [h3] at hout
  cases h4 : getSeriesE
      (setCol (setCol (setCol (ensureCols (renameWithSynonyms df salesMapping) salesDefaults)
        "item" (itemS.map coerceTextVal)) "customer" (custS.map coerceTextVal))
        "qty" (qtyS.map coerceQtyVal)) "unit_price" with
  | error e =>
    simp only [h4] at hout
    exact Except.noConfusion hout
  | ok priceS =>
  simp only [h4] at hout
  cases h5 : getSeriesE
      (setCol (setCol (setCol (setCol (ensureCols (renameWithSynonyms df salesMapping) salesDefaults)
        "item" (itemS.map coerceTextVal)) "customer" (custS.map coerceTextVal))
        "qty" (qtyS.map coerceQtyVal)) "unit_price" (priceS.map coercePriceVal))
      "item" with
  | error e =>
    simp only [h5] at hout
    exact Except.noConfusion hout
  | ok itemF =>
  simp only [h5] at hout
  cases h6 : getSeriesE
      (applyMask (setCol (setCol (setCol (setCol (ensureCols (renameWithSynonyms df salesMapping) salesDefaults)
        "item" (itemS.map coerceTextVal)) "customer" (custS.map coerceTextVal))
        "qty" (qtyS.map coerceQtyVal)) "unit_price" (priceS.map coercePriceVal))
        (itemF.map strLenPos)) "qty" with
  | error e =>
    simp only [h6] at hout
    exact Except.noConfusion hout
  | ok qtyF =>
  simp only [h6] at hout
  obtain rfl := Except.ok.inj hout
  have hz2 := allZeroAt_setCol_ne _ "qty" "item" (itemS.map coerceTextVal)
    (by decide) hz1
  have hz3 := allZeroAt_setCol_ne _ "qty" "customer" (custS.map coerceTextVal)
    (by decide) hz2
  have hq : ∀ x ∈ qtyS, x = Val.num 0 := allZeroAt_getSeriesE _ "qty" qtyS h3 hz3
  have hq4 : ∀ x ∈ qtyS.map coerceQtyVal, x = Val.num 0 := by
    intro x hx
    obtain ⟨y, hy, he⟩ := List.mem_map.mp hx
    rw [← he, hq y hy]
    rfl
  have hz4 := allZeroAt_setCol_self _ "qty" (qtyS.map coerceQtyVal) hq4 hz3
  have hz5 := allZeroAt_setCol_ne _ "qty" "unit_price" (priceS.map coercePriceVal)
    (by decide) hz4
  have hz6 := allZeroAt_applyMask _ "qty" (itemF.map strLenPos) hz5
  have hqF : ∀ x ∈ qtyF, x = Val.num 0 := allZeroAt_getSeriesE _ "qty" qtyF h6 hz6
  have hmask : ∀ b ∈ qtyF.map numPos, b = false := by
    intro b hb
    obtain ⟨y, hy, he⟩ := List.mem_map.mp hb
    rw [← he, hqF y hy]
    rfl
  have hcells : ∀ c ∈ (applyMask
      (applyMask (setCol (setCol (setCol (setCol (ensureCols (renameWithSynonyms df salesMapping) salesDefaults)
        "item" (itemS.map coerceTextVal)) "customer" (custS.map coerceTextVal))
        "qty" (qtyS.map coerceQtyVal)) "unit_price" (priceS.map coercePriceVal))
        (itemF.map strLenPos)) (qtyF.map numPos)).cols, c.cells = [] := by
    intro c hc
    obtain ⟨c0, _, he⟩ := mem_applyMask _ (qtyF.map numPos) c hc
    rw [he]
    exact maskCells_eq_nil _ _ hmask
  refine ⟨?_, ?_, ?_⟩
  · intro c hc
    exact hcells c (mem_selectCols _ _ c hc)
  · exact salesRows_eq_nil _ (fun c hc => hcells c (mem_selectCols _ _ c hc))
  · intro s today
    rw [salesRows_eq_nil _ (fun c hc => hcells c (mem_selectCols _ _ c hc))]
    rfl

/-- C10 witness: a file with item and price columns but no qty column
normalizes to an empty frame and imports zero rows. -/
theorem C10_missing_qty_empty_import_witness :
    ("qty" ∉ (renameWithSynonyms noQtyDF salesMapping).names) ∧
    ((∀ c ∈ (DF.mk [⟨"item", []⟩, ⟨"qty", []⟩, ⟨"unit_price", []⟩,
        ⟨"customer", []⟩]).cols, c.cells = []) ∧
      salesRows ⟨[⟨"item", []⟩, ⟨"qty", []⟩, ⟨"unit_price", []⟩,
        ⟨"customer", []⟩]⟩ = [] ∧
      ∀ (s : Store) (today : Int),
        applySalesRows s today (salesRows ⟨[⟨"item", []⟩, ⟨"qty", []⟩,
          ⟨"unit_price", []⟩, ⟨"customer", []⟩]⟩) = (s, 0)) :=
  ⟨by decide,
   C10_missing_qty_empty_import noQtyDF (by decide)
     ⟨[⟨"item", []⟩, ⟨"qty", []⟩, ⟨"unit_price", []⟩, ⟨"customer", []⟩]⟩ rfl⟩

/-! ### Claim C6: several columns resolving to one target -/

/-- C6 counterexample: with input columns `product` and `item_name`, both
resolve to `item`; the rename produces two `item` columns and the normalizer
raises instead of letting the first column win. -/
theorem C6_duplicate_columns_cex :
    (renameWithSynonyms duplicateItemDF salesMapping).names = ["item", "item"] ∧
    normalizeSalesDF duplicateItemDF = .error "duplicate column labels" :=
  ⟨rfl, rfl⟩

/-- C6 (amended): whenever two or more input columns resolve to the same
canonical Sales field, the renamed frame carries that label twice, the
subsequent Series coercion step raises, and the whole normalization (and so
the import of that file) fails with an error instead of keeping the first
matching column. -/
theorem C6_duplicate_columns_error (df : DF) (t : String)
    (ht : t ∈ ["item", "customer", "qty", "unit_price"])
    (hdup : 2 ≤ countLabel (renameWithSynonyms df salesMapping) t) :
    normalizeSalesDF df = .error "duplicate column labels" := by
  simp only [normalizeSalesDF]
  set dfE := ensureCols (renameWithSynonyms df salesMapping) salesDefaults
    with hdfE
  have hone : ∀ u, u ∈ salesDefaults.map Prod.fst →
      ¬ 2 ≤ countLabel dfE u → countLabel dfE u = 1 := by
    intro u hu h2
    have he := countLabel_ensureCols (renameWithSynonyms df salesMapping)
      salesDefaults u
    rw [← hdfE] at he
    by_cases hc : countLabel (renameWithSynonyms df salesMapping) u = 0
    · rw [he, if_pos ⟨hc, hu⟩]
    · rw [he, if_neg (fun hand => hc hand.1)] at h2 ⊢
      omega
  have htE : 2 ≤ countLabel dfE t := by
    have he := countLabel_ensureCols (renameWithSynonyms df salesMapping)
      salesDefaults t
    rw [← hdfE] at he
    rw [he, if_neg (fun hand => by rw [hand.1] at hdup; omega)]
    exact hdup
  by_cases hitem : 2 ≤ countLabel dfE "item"
  · rw [getSeriesE_dup dfE "item" hitem]
  · have h1 := hone "item" (by decide) hitem
    obtain ⟨itemS, hS1⟩ := getSeriesE_ok_of_one dfE "item" h1
    simp only [hS1]
    by_cases hcust : 2 ≤ countLabel dfE "customer"
    · rw [getSeriesE_dup (setCol dfE "item" (itemS.map coerceTextVal)) "customer"
        (by rw [countLabel_setCol]; exact hcust)]
    · have h2 := hone "customer" (by decide) hcust
      obtain ⟨custS, hS2⟩ := getSeriesE_ok_of_one
        (setCol dfE "item" (itemS.map coerceTextVal)) "customer"
        (by rw [countLabel_setCol]; exact h2)
      simp only [hS2]
      by_cases hqty : 2 ≤ countLabel dfE "qty"
      · rw [getSeriesE_dup
          (setCol (setCol dfE "item" (itemS.map coerceTextVal)) "customer"
            (custS.map coerceTextVal)) "qty"
          (by rw [countLabel_setCol, countLabel_setCol]; exact hqty)]
      · have h3 := hone "qty" (by decide) hqty
        obtain ⟨qtyS, hS3⟩ := getSeriesE_ok_of_one
          (setCol (setCol dfE "item" (itemS.map coerceTextVal)) "customer"
            (custS.map coerceTextVal)) "qty"
          (by rw [countLabel_setCol, countLabel_setCol]; exact h3)
        simp only [hS3]
        by_cases hprice : 2 ≤ countLabel dfE "unit_price"
        · rw [getSeriesE_dup
            (setCol (setCol (setCol dfE "item" (itemS.map coerceTextVal))
              "customer" (custS.map coerceTextVal)) "qty"
              (qtyS.map coerceQtyVal)) "unit_price"
            (by rw [countLabel_setCol, countLabel_setCol, countLabel_setCol]
                exact hprice)]
        · simp only [List.mem_cons, List.not_mem_nil, or_false] at ht
          rcases ht with rfl | rfl | rfl | rfl
          · exact absurd htE hitem
          · exact absurd htE hcust
          · exact absurd htE hqty
          · exact absurd htE hprice

/-- C6 witness: the two-column frame `product` / `item_name` satisfies the
duplication hypothesis for target `item`, and its normalization errors. -/
theorem C6_duplicate_columns_error_witness :
    ("item" ∈ ["item", "customer", "qty", "unit_price"] ∧
      2 ≤ countLabel (renameWithSynonyms duplicateItemDF salesMapping) "item") ∧
    normalizeSalesDF duplicateItemDF = .error "duplicate column labels" :=
  ⟨⟨by decide, by decide⟩,
   C6_duplicate_columns_error duplicateItemDF "item" (by decide) (by decide)⟩

/-! ### Claim C5: header synonym resolution -/

/-- C5: a column whose cleaned header (lowercased, trimmed, spaces and
hyphens to underscores) equals a Sales target field's canonical name or one
of its synonyms — which covers every casing, surrounding-whitespace, space
or hyphen variant of those headers — is renamed onto that target field. -/
theorem C5_synonym_resolution (df : DF) (i : Nat) (hi : i < df.cols.length)
    (t : String) (syns : List String) (hts : (t, syns) ∈ salesMapping)
    (hv : cleanCol (df.cols.get ⟨i, hi⟩).name ∈ t :: syns) :
    ((renameWithSynonyms df salesMapping).cols.get
        ⟨i, by rw [renameWithSynonyms_length]; exact hi⟩).name = t := by
  have hlast : lastMatchFrom (cleanCol (df.cols.get ⟨i, hi⟩).name)
      salesMapping none = some t := by
    generalize hg : cleanCol (df.cols.get ⟨i, hi⟩).name = ci at hv ⊢
    simp only [salesMapping, List.mem_cons, List.not_mem_nil, or_false] at hts
    rcases hts with h4 | h4 | h4 | h4 <;>
      · injection h4 with ha hb
        subst ha
        subst hb
        fin_cases hv <;> rfl
  have hmem : cleanCol (df.cols.get ⟨i, hi⟩).name
      ∈ (df.cols.map (fun c => (⟨cleanCol c.name, c.cells⟩ : Col))).map
          Col.name := by
    refine List.mem_map.mpr
      ⟨⟨cleanCol (df.cols.get ⟨i, hi⟩).name, (df.cols.get ⟨i, hi⟩).cells⟩, ?_, rfl⟩
    exact List.mem_map.mpr ⟨df.cols.get ⟨i, hi⟩, List.get_mem df.cols i hi, rfl⟩
  simp only [List.get_eq_getElem] at hmem hlast
  simp only [renameWithSynonyms, List.get_eq_getElem, List.getElem_map]
  rw [lookupAssoc_buildRenameMap_closed _ _ salesMapping hmem, hlast]
  rfl

/-- C5 witness: the header "Product Name" cleans to "product_name", a
synonym of `item`, and the renamed single-column frame carries label
`item`. -/
theorem C5_synonym_resolution_witness :
    ((("item", ["product", "product_name", "item_name", "name", "sku", "title"])
        ∈ salesMapping ∧
      cleanCol ((DF.mk [⟨"Product Name", []⟩]).cols.get ⟨0, by decide⟩).name
        ∈ "item" :: ["product", "product_name", "item_name", "name", "sku", "title"]) ∧
    ((renameWithSynonyms ⟨[⟨"Product Name", []⟩]⟩ salesMapping).cols.get
        ⟨0, by rw [renameWithSynonyms_length]; decide⟩).name = "item") :=
  ⟨⟨by decide, by decide⟩,
   C5_synonym_resolution ⟨[⟨"Product Name", []⟩]⟩ 0 (by decide) "item"
     ["product", "product_name", "item_name", "name", "sku", "title"]
     (by decide) (by decide)⟩

/-! ### Claim C4: the Sales row filter -/

/-- C4: whenever Sales normalization succeeds, its output rows are exactly
the coerced input rows (item/customer via astype(str)+strip, qty via
to_numeric+fillna(1), unit_price via to_numeric+fillna(0)) that pass both
filters — trimmed item non-empty and coerced quantity strictly positive —
in input order: a row appears in the output iff it satisfies both, and
every row with a blank item or quantity ≤ 0 is excluded. -/
theorem C4_sales_row_filter (df : DF) (out : DF)
    (itemC qtyC priceC custC : List Val)
    (hitem : getSeriesE (ensureCols (renameWithSynonyms df salesMapping)
      salesDefaults) "item" = .ok itemC)
    (hqty : getSeriesE (ensureCols (renameWithSynonyms df salesMapping)
      salesDefaults) "qty" = .ok qtyC)
    (hprice : getSeriesE (ensureCols (renameWithSynonyms df salesMapping)
      salesDefaults) "unit_price" = .ok priceC)
    (hcust : getSeriesE (ensureCols (renameWithSynonyms df salesMapping)
      salesDefaults) "customer" = .ok custC)
    (hlq : qtyC.length = itemC.length) (hlp : priceC.length = itemC.length)
    (hlc : custC.length = itemC.length)
    (hout : normalizeSalesDF df = .ok out) :
    salesRows out
      = (zipRows (itemC.map coerceTextVal) (qtyC.map coerceQtyVal)
          (priceC.map coercePriceVal) (custC.map coerceTextVal)).filter
          (fun r => strLenPos r.1 && numPos r.2.1) := by
  set dfE := ensureCols (renameWithSynonyms df salesMapping) salesDefaults
    with hdfE
  have h2 : getSeriesE (setCol dfE "item" (itemC.map coerceTextVal))
      "customer" = .ok custC := by
    rw [getSeriesE_setCol_ne dfE "item" "customer" _ (by decide)]
    exact hcust
  have h3 : getSeriesE (setCol (setCol dfE "item" (itemC.map coerceTextVal))
      "customer" (custC.map coerceTextVal)) "qty" = .ok qtyC := by
    rw [getSeriesE_setCol_ne _ "customer" "qty" _ (by decide),
      getSeriesE_setCol_ne _ "item" "qty" _ (by decide)]
    exact hqty
  have h4 : getSeriesE (setCol (setCol (setCol dfE "item"
      (itemC.map coerceTextVal)) "customer" (custC.map coerceTextVal))
      "qty" (qtyC.map coerceQtyVal)) "unit_price" = .ok priceC := by
    rw [getSeriesE_setCol_ne _ "qty" "unit_price" _ (by decide),
      getSeriesE_setCol_ne _ "customer" "unit_price" _ (by decide),
      getSeriesE_setCol_ne _ "item" "unit_price" _ (by decide)]
    exact hprice
  have h5 : getSeriesE (setCol (setCol (setCol (setCol dfE "item"
      (itemC.map coerceTextVal)) "customer" (custC.map coerceTextVal))
      "qty" (qtyC.map coerceQtyVal)) "unit_price" (priceC.map coercePriceVal))
      "item" = .ok (itemC.map coerceTextVal) := by
    rw [getSeriesE_setCol_ne _ "unit_price" "item" _ (by decide),
      getSeriesE_setCol_ne _ "qty" "item" _ (by decide),
      getSeriesE_setCol_ne _ "customer" "item" _ (by decide)]
    exact getSeriesE_setCol_self dfE "item" _ itemC hitem
  have h5q : getSeriesE (setCol (setCol (setCol (setCol dfE "item"
      (itemC.map coerceTextVal)) "customer" (custC.map coerceTextVal))
      "qty" (qtyC.map coerceQtyVal)) "unit_price" (priceC.map coercePriceVal))
      "qty" = .ok (qtyC.map coerceQtyVal) := by
    rw [getSeriesE_setCol_ne _ "unit_price" "qty" _ (by decide)]
    exact getSeriesE_setCol_self _ "qty" _ qtyC h3
  have h5p : getSeriesE (setCol (setCol (setCol (setCol dfE "item"
      (itemC.map coerceTextVal)) "customer" (custC.map coerceTextVal))
      "qty" (qtyC.map coerceQtyVal)) "unit_price" (priceC.map coercePriceVal))
      "unit_price" = .ok (priceC.map coercePriceVal) :=
    getSeriesE_setCol_self _ "unit_price" _ priceC h4
  have h5c : getSeriesE (setCol (setCol (setCol (setCol dfE "item"
      (itemC.map coerceTextVal)) "customer" (custC.map coerceTextVal))
      "qty" (qtyC.map coerceQtyVal)) "unit_price" (priceC.map coercePriceVal))
      "customer" = .ok (custC.map coerceTextVal) := by
    rw [getSeriesE_setCol_ne _ "unit_price" "customer" _ (by decide),
      getSeriesE_setCol_ne _ "qty" "customer" _ (by decide)]
    exact getSeriesE_setCol_self _ "customer" _ custC h2
  have h6i := getSeriesE_applyMask _ "item"
    ((itemC.map coerceTextVal).map strLenPos) _ h5
  have h6q := getSeriesE_applyMask _ "qty"
    ((itemC.map coerceTextVal).map strLenPos) _ h5q
  have h6p := getSeriesE_applyMask _ "unit_price"
    ((itemC.map coerceTextVal).map strLenPos) _ h5p
  have h6c := getSeriesE_applyMask _ "customer"
    ((itemC.map coerceTextVal).map strLenPos) _ h5c
  have h7i := getSeriesE_applyMask _ "item"
    ((maskCells ((itemC.map coerceTextVal).map strLenPos)
      (qtyC.map coerceQtyVal)).map numPos) _ h6i
  have h7q := getSeriesE_applyMask _ "qty"
    ((maskCells ((itemC.map coerceTextVal).map strLenPos)
      (qtyC.map coerceQtyVal)).map numPos) _ h6q
  have h7p := getSeriesE_applyMask _ "unit_price"
    ((maskCells ((itemC.map coerceTextVal).map strLenPos)
      (qtyC.map coerceQtyVal)).map numPos) _ h6p
  have h7c := getSeriesE_applyMask _ "customer"
    ((maskCells ((itemC.map coerceTextVal).map strLenPos)
      (qtyC.map coerceQtyVal)).map numPos) _ h6c
  simp only [normalizeSalesDF] at hout
  rw [← hdfE] at hout
  simp only [hitem] at hout
  simp only [h2] at hout
  simp only [h3] at hout
  simp only [h4] at hout
  simp only [h5] at hout
  simp only [h6q] at hout
  obtain rfl := Except.ok.inj hout
  have hf1 := filter_eq_single_col _ "item" _ h7i
  have hf2 := filter_eq_single_col _ "qty" _ h7q
  have hf3 := filter_eq_single_col _ "unit_price" _ h7p
  have hf4 := filter_eq_single_col _ "customer" _ h7c
  have hsel : (selectCols (applyMask (applyMask (setCol (setCol (setCol
      (setCol dfE "item" (itemC.map coerceTextVal)) "customer"
        (custC.map coerceTextVal)) "qty" (qtyC.map coerceQtyVal))
      "unit_price" (priceC.map coercePriceVal))
      ((itemC.map coerceTextVal).map strLenPos))
      ((maskCells ((itemC.map coerceTextVal).map strLenPos)
        (qtyC.map coerceQtyVal)).map numPos))
      ["item", "qty", "unit_price", "customer"]).cols
      = [⟨"item", maskCells ((maskCells ((itemC.map coerceTextVal).map strLenPos)
            (qtyC.map coerceQtyVal)).map numPos)
            (maskCells ((itemC.map coerceTextVal).map strLenPos)
              (itemC.map coerceTextVal))⟩,
         ⟨"qty", maskCells ((maskCells ((itemC.map coerceTextVal).map strLenPos)
            (qtyC.map coerceQtyVal)).map numPos)
            (maskCells ((itemC.map coerceTextVal).map strLenPos)
              (qtyC.map coerceQtyVal))⟩,
         ⟨"unit_price", maskCells ((maskCells ((itemC.map coerceTextVal).map strLenPos)
            (qtyC.map coerceQtyVal)).map numPos)
            (maskCells ((itemC.map coerceTextVal).map strLenPos)
              (priceC.map coercePriceVal))⟩,
         ⟨"customer", maskCells ((maskCells ((itemC.map coerceTextVal).map strLenPos)
            (qtyC.map coerceQtyVal)).map numPos)
            (maskCells ((itemC.map coerceTextVal).map strLenPos)
              (custC.map coerceTextVal))⟩] := by
    simp only [selectCols, List.foldr_cons, List.foldr_nil, hf1, hf2, hf3, hf4]
    rfl
  simp only [salesRows, hsel]
  have hstage1 := zipRows_mask_fst (itemC.map coerceTextVal)
    (qtyC.map coerceQtyVal) (priceC.map coercePriceVal)
    (custC.map coerceTextVal) strLenPos
    (by simp [hlq]) (by simp [hlp]) (by simp [hlc])
  have hstage2 := zipRows_mask_snd
    (maskCells ((itemC.map coerceTextVal).map strLenPos)
      (itemC.map coerceTextVal))
    (maskCells ((itemC.map coerceTextVal).map strLenPos)
      (qtyC.map coerceQtyVal))
    (maskCells ((itemC.map coerceTextVal).map strLenPos)
      (priceC.map coercePriceVal))
    (maskCells ((itemC.map coerceTextVal).map strLenPos)
      (custC.map coerceTextVal)) numPos
    (maskCells_length_congr _ _ _ (by simp [hlq]))
    (maskCells_length_congr _ _ _ (by simp [hlp]))
    (maskCells_length_congr _ _ _ (by simp [hlc]))
  rw [hstage2, hstage1, List.filter_filter]
  exact List.filter_congr (fun r hr => by rw [Bool.and_comm])

/-- C4 witness: a three-row file (items "Tea"/""/"Rice", quantities
"abc"/"2"/"-1") normalizes to exactly the rows passing both filters; here
only the "Tea" row (qty coerced to 1) survives. -/
theorem C4_sales_row_filter_witness :
    (getSeriesE (ensureCols (renameWithSynonyms
        ⟨[⟨"Product Name", [.str "Tea", .str "", .str "Rice"]⟩,
          ⟨"Quantity", [.str "abc", .str "2", .str "-1"]⟩]⟩ salesMapping)
        salesDefaults) "item" = .ok [.str "Tea", .str "", .str "Rice"] ∧
     getSeriesE (ensureCols (renameWithSynonyms
        ⟨[⟨"Product Name", [.str "Tea", .str "", .str "Rice"]⟩,
          ⟨"Quantity", [.str "abc", .str "2", .str "-1"]⟩]⟩ salesMapping)
        salesDefaults) "qty" = .ok [.str "abc", .str "2", .str "-1"] ∧
     getSeriesE (ensureCols (renameWithSynonyms
        ⟨[⟨"Product Name", [.str "Tea", .str "", .str "Rice"]⟩,
          ⟨"Quantity", [.str "abc", .str "2", .str "-1"]⟩]⟩ salesMapping)
        salesDefaults) "unit_price" = .ok [.num 0, .num 0, .num 0] ∧
     getSeriesE (ensureCols (renameWithSynonyms
        ⟨[⟨"Product Name", [.str "Tea", .str "", .str "Rice"]⟩,
          ⟨"Quantity", [.str "abc", .str "2", .str "-1"]⟩]⟩ salesMapping)
        salesDefaults) "customer" = .ok [.str "", .str "", .str ""] ∧
     normalizeSalesDF ⟨[⟨"Product Name", [.str "Tea", .str "", .str "Rice"]⟩,
          ⟨"Quantity", [.str "abc", .str "2", .str "-1"]⟩]⟩
       = .ok ⟨[⟨"item", [.str "Tea"]⟩, ⟨"qty", [.num 1]⟩,
          ⟨"unit_price", [.num 0]⟩, ⟨"customer", [.str ""]⟩]⟩) ∧
    salesRows ⟨[⟨"item", [.str "Tea"]⟩, ⟨"qty", [.num 1]⟩,
        ⟨"unit_price", [.num 0]⟩, ⟨"customer", [.str ""]⟩]⟩
      = (zipRows ([.str "Tea", .str "", .str "Rice"].map coerceTextVal)
          ([.str "abc", .str "2", .str "-1"].map coerceQtyVal)
          ([.num 0, .num 0, .num 0].map coercePriceVal)
          ([.str "", .str "", .str ""].map coerceTextVal)).filter
          (fun r => strLenPos r.1 && numPos r.2.1) :=
  ⟨⟨rfl, rfl, rfl, rfl, rfl⟩,
   C4_sales_row_filter
     ⟨[⟨"Product Name", [.str "Tea", .str "", .str "Rice"]⟩,
       ⟨"Quantity", [.str "abc", .str "2", .str "-1"]⟩]⟩
     ⟨[⟨"item", [.str "Tea"]⟩, ⟨"qty", [.num 1]⟩,
       ⟨"unit_price", [.num 0]⟩, ⟨"customer", [.str ""]⟩]⟩
     [.str "Tea", .str "", .str "Rice"] [.str "abc", .str "2", .str "-1"]
     [.num 0, .num 0, .num 0] [.str "", .str "", .str ""]
     rfl rfl rfl rfl rfl rfl rfl rfl⟩

end Ledgerly
